import Mathlib

/-!
# hex-parser: a streaming Intel-HEX record parser

Shallow embedding of `hex.cpp` / `hex.h` (the decoder `hexCharToNumber` and the
`HexParser` state machine) and of the feeding loop of `demo.cpp`, followed by
theorems about them.

Conventions of the embedding.

* A C `char` is represented by the `Int` it promotes to (`-128..127` where
  `char` is signed, `0..255` where it is unsigned).  An input buffer
  `const char*` is a function from offsets to such values; `len` is passed
  separately, exactly as in the source.
* `uint8_t`, `uint16_t`, `uint32_t` values are `Nat`s; every conversion to one
  of them is an explicit `% 2 ^ w`.  `size_t` values are `Nat`s.
* The seven state objects of `HexParser` are the constructors of `State`;
  `currentState` holds one of them and `newData` dispatches on it.
* A store to `dataBuffer[i]` with `i` outside the array has no defined
  behaviour in C++; the embedding reports it as `Fault.outOfBounds i`
  instead of inventing a result.
-/

namespace hex

/-! ## hex.cpp -/

/-- Decoder for one character, `uint8_t hexCharToNumber(char c)`. -/
def hexCharToNumber (c : Int) : Nat :=
  if c ≥ 0x61 then ((c - 0x61 + 0x0a) % 256).toNat
  else if c ≥ 0x41 then ((c - 0x41 + 0x0a) % 256).toNat
  else ((c - 0x30) % 256).toNat

/-- Decoder for a pair of characters, `uint8_t hexCharToNumber(char high, char low)`. -/
def hexCharToNumber2 (high low : Int) : Nat :=
  ((hexCharToNumber high <<< 4) ||| hexCharToNumber low) % 256

/-! ## hex.h -/

/-- Record kinds, `enum class RecordType`. -/
inductive RecordType where
  | Invalid
  | Data
  | EndOfFile
  deriving DecidableEq, Repr

/-- Capacity of `DataRecord::data`. -/
def RECORD_LEN_MAX : Nat := 50

/-- Capacity of `HexParser::dataBuffer`. -/
def DATA_BUFFER_LEN_MAX : Nat := 50

/-- The caller-side record, `struct DataRecord`. -/
structure DataRecord where
  addr : Nat
  data : Nat → Nat
  len : Nat

/-- Constructor of `DataRecord`: `addr{0}`, `len{0}` and `memset(data, 0xff, ...)`. -/
def DataRecord.new : DataRecord :=
  { addr := 0, data := fun _ => 0xff, len := 0 }

/-- The state objects of `HexParser`; `currentState` points at one of them. -/
inductive State where
  | waitForStart
  | waitForByteCount
  | waitForAddress
  | waitForRecordType
  | waitForData
  | waitForChecksum
  | error
  deriving DecidableEq, Repr

/-- An input buffer: the characters found at offsets 0, 1, 2, ... of a `const char*`. -/
abbrev Buffer := Nat → Int

/-- The data members of `HexParser`. -/
structure HexParser where
  currentState : State
  recordType : RecordType
  expectedByteCount : Nat
  dataLen : Nat
  dataBuffer : Nat → Nat
  addr : Nat
  checksum : Nat

/-- A newly constructed parser.  `dataBuffer` has no initialiser in the source, so its
initial content `uninit` is arbitrary. -/
def HexParser.new (uninit : Nat → Nat) : HexParser :=
  { currentState := State.waitForStart
    recordType := RecordType.Invalid
    expectedByteCount := 0
    dataLen := 0
    dataBuffer := uninit
    addr := 0
    checksum := 0 }

/-- Ways in which the embedding can fail to produce a result. -/
inductive Fault where
  | outOfBounds (index : Nat)
  | outOfFuel
  deriving DecidableEq, Repr

/-- The `while((2*i+1) < len)` loop of `WaitForData::newData`.  Returns the context and the
final `i`.  `fuel` bounds the number of condition tests. -/
def dataLoop : Nat → HexParser → Buffer → Nat → Nat → Except Fault (HexParser × Nat)
  | 0, _, _, _, _ => Except.error Fault.outOfFuel
  | fuel + 1, context, inBuffer, len, i =>
    if 2 * i + 1 < len then
      if i < DATA_BUFFER_LEN_MAX then
        let context1 : HexParser :=
          { context with
            dataBuffer := fun j =>
              if j = i then hexCharToNumber2 (inBuffer (2 * i)) (inBuffer (2 * i + 1))
              else context.dataBuffer j }
        let context2 : HexParser :=
          { context1 with checksum := (context1.checksum + context1.dataBuffer i) % 2 ^ 32 }
        dataLoop fuel context2 inBuffer len (i + 1)
      else Except.error (Fault.outOfBounds i)
    else Except.ok (context, i)

/-- The method `HexParser::newData`, dispatching to the current state object. -/
def HexParser.newData (context : HexParser) (inBuffer : Buffer) (len : Nat) :
    Except Fault (HexParser × Nat) :=
  match context.currentState with
  | State.waitForStart =>
    let context := { context with recordType := RecordType.Invalid }
    if len ≠ 1 then
      Except.ok ({ context with currentState := State.error }, 1)
    else if inBuffer 0 ≠ 0x3a then -- ':'
      Except.ok ({ context with currentState := State.error }, 1)
    else
      Except.ok ({ context with currentState := State.waitForByteCount }, 2)
  | State.waitForByteCount =>
    if len ≠ 2 then
      Except.ok ({ context with currentState := State.error }, 2)
    else
      let context :=
        { context with expectedByteCount := hexCharToNumber2 (inBuffer 0) (inBuffer 1) % 2 ^ 16 }
      let context :=
        { context with checksum := (context.checksum + context.expectedByteCount) % 2 ^ 32 }
      Except.ok ({ context with currentState := State.waitForAddress }, 4)
  | State.waitForAddress =>
    if len ≠ 4 then
      Except.ok ({ context with currentState := State.error }, 4)
    else
      let addrMSB := hexCharToNumber2 (inBuffer 0) (inBuffer 1)
      let context := { context with checksum := (context.checksum + addrMSB) % 2 ^ 32 }
      let addrLSB := hexCharToNumber2 (inBuffer 2) (inBuffer 3)
      let context := { context with checksum := (context.checksum + addrLSB) % 2 ^ 32 }
      let context := { context with addr := (addrMSB <<< 8) ||| addrLSB }
      Except.ok ({ context with currentState := State.waitForRecordType }, 2)
  | State.waitForRecordType =>
    if len ≠ 2 then
      Except.ok ({ context with currentState := State.error }, 0)
    else if inBuffer 0 = 0x30 ∧ inBuffer 1 = 0x30 then -- "00"
      let context := { context with checksum := (context.checksum + 0x00) % 2 ^ 32 }
      Except.ok ({ context with currentState := State.waitForData },
        context.expectedByteCount * 2)
    else if inBuffer 0 = 0x30 ∧ inBuffer 1 = 0x31 then -- "01"
      let context := { context with checksum := (context.checksum + 0x01) % 2 ^ 32 }
      let context := { context with recordType := RecordType.EndOfFile }
      Except.ok ({ context with currentState := State.waitForChecksum }, 2)
    else
      Except.ok ({ context with currentState := State.error }, 1)
  | State.waitForData =>
    if len ≠ context.expectedByteCount * 2 then
      Except.ok ({ context with currentState := State.error }, 0)
    else
      match dataLoop (len + 1) context inBuffer len 0 with
      | Except.error f => Except.error f
      | Except.ok (context, i) =>
        let context := { context with dataLen := i }
        let context := { context with recordType := RecordType.Data }
        Except.ok ({ context with currentState := State.waitForChecksum }, 2)
  | State.waitForChecksum =>
    if len ≠ 2 then
      Except.ok ({ context with currentState := State.error }, 0)
    else
      let context :=
        { context with
          checksum := (context.checksum + hexCharToNumber2 (inBuffer 0) (inBuffer 1)) % 2 ^ 32 }
      if context.checksum &&& 0xff ≠ 0 then
        Except.ok ({ context with currentState := State.error }, 0)
      else
        Except.ok ({ context with currentState := State.waitForStart }, 1)
  | State.error => Except.ok (context, 0)

/-- The method `HexParser::recordReady`. -/
def HexParser.recordReady (p : HexParser) : Bool :=
  decide (p.currentState = State.waitForStart) && decide (p.recordType ≠ RecordType.Invalid)

/-- The method `HexParser::getRecordType`. -/
def HexParser.getRecordType (p : HexParser) : RecordType :=
  p.recordType

/-- The method `HexParser::getData`: `memcpy` of `dataLen` bytes into the caller's record,
then `addr` and the length gated by the record type.  Copying more bytes than either array
holds is out of bounds. -/
def HexParser.getData (p : HexParser) (dataRecord : DataRecord) : Except Fault DataRecord :=
  if p.dataLen ≤ DATA_BUFFER_LEN_MAX ∧ p.dataLen ≤ RECORD_LEN_MAX then
    let dataRecord : DataRecord :=
      { dataRecord with data := fun j => if j < p.dataLen then p.dataBuffer j else dataRecord.data j }
    let dataRecord := { dataRecord with addr := p.addr }
    if p.recordType = RecordType.Data then
      Except.ok { dataRecord with len := p.dataLen }
    else
      Except.ok { dataRecord with len := 0 }
  else Except.error (Fault.outOfBounds (min DATA_BUFFER_LEN_MAX RECORD_LEN_MAX))

/-- The method `HexParser::getError`, an `int8_t`. -/
def HexParser.getError (p : HexParser) : Int :=
  if p.currentState = State.error then -1 else 0

/-- The method `HexParser::reset`. -/
def HexParser.reset (p : HexParser) : HexParser :=
  { p with currentState := State.waitForStart, recordType := RecordType.Invalid }

/-! ## demo.cpp -/

/-- Pointer arithmetic on an input buffer, `pos + k`. -/
def advance (pos : Buffer) (k : Nat) : Buffer :=
  fun i => pos (k + i)

/-- The `while(!parser.recordReady())` loop of `feedIntoParser` (the same loop drives the
`integration` test): `pos` is the read cursor, `requestedCharCount` the last request.
Returns the `int` result together with the parser.  `fuel` bounds the number of loop tests. -/
def feedLoop : Nat → HexParser → Buffer → Nat → Except Fault (Int × HexParser)
  | 0, _, _, _ => Except.error Fault.outOfFuel
  | fuel + 1, parser, pos, requestedCharCount =>
    if !parser.recordReady then
      if parser.getError ≠ 0 then Except.ok (parser.getError, parser)
      else
        let requestedCharCountPrev := requestedCharCount
        match parser.newData pos requestedCharCountPrev with
        | Except.error f => Except.error f
        | Except.ok (parser, requestedCharCount) =>
          feedLoop fuel parser (advance pos requestedCharCountPrev) requestedCharCount
    else Except.ok (0, parser)

/-- The function `feedIntoParser` of `demo.cpp`. -/
def feedIntoParser (fuel : Nat) (parser : HexParser) (input : Buffer) :
    Except Fault (Int × HexParser) :=
  feedLoop fuel parser input 1

/-! ## Call sequences -/

/-- One call of the public interface that changes the parser. -/
inductive Call where
  | newData (inBuffer : Buffer) (len : Nat)
  | reset

/-- Apply one call, dropping the value `newData` returns. -/
def Call.apply (p : HexParser) : Call → Except Fault HexParser
  | Call.newData inBuffer len =>
    match p.newData inBuffer len with
    | Except.error f => Except.error f
    | Except.ok (p, _) => Except.ok p
  | Call.reset => Except.ok p.reset

/-- Apply a sequence of calls from left to right. -/
def run (p : HexParser) : List Call → Except Fault HexParser
  | [] => Except.ok p
  | c :: cs =>
    match c.apply p with
    | Except.error f => Except.error f
    | Except.ok p => run p cs

/-- The caller protocol, `n` rounds of the body of the feeding loop: hand over exactly
`requested` characters, advance the cursor by as many, remember the new request. -/
def feedChunks : Nat → HexParser → Buffer → Nat → Except Fault (HexParser × Nat)
  | 0, parser, _, requested => Except.ok (parser, requested)
  | n + 1, parser, pos, requested =>
    match parser.newData pos requested with
    | Except.error f => Except.error f
    | Except.ok (parser, next) => feedChunks n parser (advance pos requested) next

/-- The characters of a string literal, followed by NUL bytes. -/
def cstr (s : String) : Buffer :=
  fun i => ((s.toList.getD i (Char.ofNat 0)).toNat : Int)

/-! ## Vocabulary of the properties -/

/-- The length the `if (len != ...)` guard of the current state object compares `len`
with (no guard in `Error`). -/
def expectedLength (p : HexParser) : Nat :=
  match p.currentState with
  | State.waitForStart => 1
  | State.waitForByteCount => 2
  | State.waitForAddress => 4
  | State.waitForRecordType => 2
  | State.waitForData => p.expectedByteCount * 2
  | State.waitForChecksum => 2
  | State.error => 0

/-- The byte the parser decodes from the characters at offsets `k`, `k + 1`. -/
def byteAt (line : Buffer) (k : Nat) : Nat :=
  hexCharToNumber2 (line k) (line (k + 1))

/-- Sum of the bytes decoded from the first `n` character pairs starting at offset `k`. -/
def bytesSum (line : Buffer) (k : Nat) : Nat → Nat
  | 0 => 0
  | n + 1 => bytesSum line k n + byteAt line (k + 2 * n)

/-- One of the characters `0-9`, `A-F`, `a-f`. -/
def isHexDigit (c : Int) : Prop :=
  (0x30 ≤ c ∧ c ≤ 0x39) ∨ (0x41 ≤ c ∧ c ≤ 0x46) ∨ (0x61 ≤ c ∧ c ≤ 0x66)

instance isHexDigit.instDecidable (c : Int) : Decidable (isHexDigit c) := by
  unfold isHexDigit
  infer_instance

/-- Numeric value of a hexadecimal digit character (0 for any other character). -/
def hexDigitValue (c : Int) : Nat :=
  if 0x30 ≤ c ∧ c ≤ 0x39 then (c - 0x30).toNat
  else if 0x41 ≤ c ∧ c ≤ 0x46 then 10 + (c - 0x41).toNat
  else if 0x61 ≤ c ∧ c ≤ 0x66 then 10 + (c - 0x61).toNat
  else 0

/-- Numeric value of the two-digit hexadecimal numeral at offsets `k`, `k + 1`. -/
def pairValue (line : Buffer) (k : Nat) : Nat :=
  16 * hexDigitValue (line k) + hexDigitValue (line (k + 1))

/-- Sum of the values of the first `n` two-digit numerals starting at offset `k`. -/
def pairsSum (line : Buffer) (k : Nat) : Nat → Nat
  | 0 => 0
  | n + 1 => pairsSum line k n + pairValue line (k + 2 * n)

/-- A well-formed Data line `: BB AAAA 00 DD.. CC` of the wire format: start delimiter,
hexadecimal digits throughout, record type `00`, a byte count of at most 50 followed by
that many payload pairs, and a checksum that makes the byte sum vanish modulo 256. -/
def WellFormedDataLine (line : Buffer) : Prop :=
  line 0 = 0x3a ∧
  (∀ k < 11 + 2 * pairValue line 1, 1 ≤ k → isHexDigit (line k)) ∧
  line 7 = 0x30 ∧ line 8 = 0x30 ∧
  pairValue line 1 ≤ 50 ∧
  (pairValue line 1 + pairValue line 3 + pairValue line 5 + 0x00
    + pairsSum line 9 (pairValue line 1) + pairValue line (9 + 2 * pairValue line 1)) % 256 = 0

instance WellFormedDataLine.instDecidable (line : Buffer) : Decidable (WellFormedDataLine line) := by
  unfold WellFormedDataLine
  infer_instance

/-- A well-formed End-of-File line `: BB AAAA 01 CC` of the wire format. -/
def WellFormedEofLine (line : Buffer) : Prop :=
  line 0 = 0x3a ∧
  (∀ k < 11, 1 ≤ k → isHexDigit (line k)) ∧
  line 7 = 0x30 ∧ line 8 = 0x31 ∧
  (pairValue line 1 + pairValue line 3 + pairValue line 5 + 0x01 + pairValue line 9) % 256 = 0

instance WellFormedEofLine.instDecidable (line : Buffer) : Decidable (WellFormedEofLine line) := by
  unfold WellFormedEofLine
  infer_instance

/-- Sum of the bytes the parser decodes from a Data line: byte count, address MSB, address
LSB, record-type code, payload bytes and checksum byte. -/
def dataByteSum (line : Buffer) : Nat :=
  byteAt line 1 + byteAt line 3 + byteAt line 5 + 0x00
    + bytesSum line 9 (byteAt line 1) + byteAt line (9 + byteAt line 1 * 2)

/-- Sum of the bytes the parser decodes from an End-of-File line: byte count, address MSB,
address LSB, record-type code and checksum byte. -/
def eofByteSum (line : Buffer) : Nat :=
  byteAt line 1 + byteAt line 3 + byteAt line 5 + 0x01 + byteAt line 9

/-- The chunks of a Data line with their lengths by the wire format: start delimiter (1),
byte count (2), address (4), record type (2), payload (2 x byte count), checksum (2). -/
def dataLineCalls (line : Buffer) : List Call :=
  [Call.newData line 1, Call.newData (advance line 1) 2, Call.newData (advance line 3) 4,
    Call.newData (advance line 7) 2, Call.newData (advance line 9) (byteAt line 1 * 2),
    Call.newData (advance line (9 + byteAt line 1 * 2)) 2]

/-- The chunks of an End-of-File line with their lengths by the wire format: start
delimiter (1), byte count (2), address (4), record type (2), checksum (2). -/
def eofLineCalls (line : Buffer) : List Call :=
  [Call.newData line 1, Call.newData (advance line 1) 2, Call.newData (advance line 3) 4,
    Call.newData (advance line 7) 2, Call.newData (advance line 9) 2]

/-- The parser `p` holds the Data record decoded from `line`; `q` is the parser the line
was fed to, whose buffer content survives beyond the payload. -/
def HoldsDataRecord (q : HexParser) (line : Buffer) (p : HexParser) : Prop :=
  p.recordType = RecordType.Data ∧
  p.expectedByteCount = byteAt line 1 ∧
  p.dataLen = byteAt line 1 ∧
  p.addr = (byteAt line 3 <<< 8) ||| byteAt line 5 ∧
  (∀ j, p.dataBuffer j =
    if j < byteAt line 1 then byteAt line (9 + 2 * j) else q.dataBuffer j) ∧
  p.checksum % 256 = (q.checksum + dataByteSum line) % 256

/-- The parser `p` holds the End-of-File record decoded from `line`, fed to the parser `q`. -/
def HoldsEofRecord (q : HexParser) (line : Buffer) (p : HexParser) : Prop :=
  p.recordType = RecordType.EndOfFile ∧
  p.expectedByteCount = byteAt line 1 ∧
  p.dataLen = q.dataLen ∧
  p.addr = (byteAt line 3 <<< 8) ||| byteAt line 5 ∧
  p.dataBuffer = q.dataBuffer ∧
  p.checksum % 256 = (q.checksum + eofByteSum line) % 256

/-- A line of the wire format together with its kind. -/
inductive Line where
  | data (chars : Buffer)
  | eof (chars : Buffer)

/-- A well-formed, correctly checksummed record: a Data line with a byte count of at most
50, or an End-of-File line. -/
def Line.WellFormed : Line → Prop
  | Line.data chars => WellFormedDataLine chars
  | Line.eof chars => WellFormedEofLine chars

/-- Feed one line by the caller protocol, starting with a chunk of length 1: six chunks
for a Data line (start, byte count, address, record type, payload, checksum), five for an
End-of-File line (no payload).  Returns the parser and what the last `newData` returned. -/
def feedLine (p : HexParser) : Line → Except Fault (HexParser × Nat)
  | Line.data chars => feedChunks 6 p chars 1
  | Line.eof chars => feedChunks 5 p chars 1

/-- Feed a sequence of lines one after the other, with no `reset()` in between. -/
def feedLines (p : HexParser) : List Line → Except Fault HexParser
  | [] => Except.ok p
  | l :: ls =>
    match feedLine p l with
    | Except.error f => Except.error f
    | Except.ok (p, _) => feedLines p ls

/-- A parser between two records: it awaits a start delimiter and the low 8 bits of its
checksum accumulator are zero. -/
def Idle (p : HexParser) : Prop :=
  p.currentState = State.waitForStart ∧ p.checksum % 256 = 0

/-- What every state reached from a new parser satisfies: the record type is `Invalid`
while byte count, address, record type or data are awaited, and it is already set while
the checksum is awaited. -/
def InFlight (p : HexParser) : Prop :=
  ((p.currentState = State.waitForByteCount ∨ p.currentState = State.waitForAddress ∨
    p.currentState = State.waitForRecordType ∨ p.currentState = State.waitForData) →
      p.recordType = RecordType.Invalid) ∧
  (p.currentState = State.waitForChecksum →
      p.recordType = RecordType.Data ∨ p.recordType = RecordType.EndOfFile)

/-! ## Example inputs -/

/-- A parser in the Error phase that still holds a decoded Data record. -/
def exampleErrorParser : HexParser :=
  { currentState := State.error
    recordType := RecordType.Data
    expectedByteCount := 1
    dataLen := 1
    dataBuffer := fun _ => 0xab
    addr := 0x0100
    checksum := 0x1ad }

/-- A parser that has received `:`, `10` and `0000` and waits for the record type. -/
def exampleAwaitingRecordType : HexParser :=
  { currentState := State.waitForRecordType
    recordType := RecordType.Invalid
    expectedByteCount := 0x10
    dataLen := 0
    dataBuffer := fun _ => 0
    addr := 0
    checksum := 0x10 }

/-- The parser after the End-of-File line `:00000001FF` has been fed to a new parser. -/
def exampleReadyEof : HexParser :=
  { currentState := State.waitForStart
    recordType := RecordType.EndOfFile
    expectedByteCount := 0
    dataLen := 0
    dataBuffer := fun _ => 0
    addr := 0
    checksum := 0x100 }

/-- The chunks of the End-of-File line `:00000001FF`, as `newData` calls. -/
def exampleEofCalls : List Call :=
  [Call.newData (cstr ":") 1, Call.newData (cstr "00") 2, Call.newData (cstr "0000") 4,
    Call.newData (cstr "01") 2, Call.newData (cstr "FF") 2]

/-- The integration line of the test suite. -/
def exampleDataLine : Buffer :=
  cstr ":10010000214601360121470136007EFE09D2190140"

/-- The End-of-File line of the test suite. -/
def exampleEofLine : Buffer :=
  cstr ":00000001FF"

/-- A Data line with byte count 0x33 = 51, 51 payload bytes `00` and the matching
checksum `CD`. -/
def exampleOversizedLine : Buffer :=
  cstr (":33000000"
    ++ "000000000000000000000000000000000000000000000000000"
    ++ "000000000000000000000000000000000000000000000000000" ++ "CD")

/-- An End-of-File line with a wrong checksum (`FE` instead of `FF`), fed chunk by chunk,
followed by `reset()`. -/
def exampleRejectedThenReset : List Call :=
  [Call.newData (cstr ":") 1, Call.newData (cstr "00") 2, Call.newData (cstr "0000") 4,
    Call.newData (cstr "01") 2, Call.newData (cstr "FE") 2, Call.reset]

/-- The Data record `03 1AbF 00 0a0b0c` of the test suite with the wrong checksum `ff`. -/
def exampleWrongChecksumLine : Buffer :=
  cstr ":031AbF000a0b0cff"

/-- The beginning of a Data line with byte count `03`, up to the record type. -/
def exampleHeaderLine : Buffer :=
  cstr ":031AbF00"

/-! ## The decoder -/

theorem hexCharToNumber2_lt (high low : Int) : hexCharToNumber2 high low < 256 := by
  unfold hexCharToNumber2
  exact Nat.mod_lt _ (by norm_num)

theorem byteAt_lt (line : Buffer) (k : Nat) : byteAt line k < 256 :=
  hexCharToNumber2_lt _ _

theorem hexCharToNumber_of_isHexDigit (c : Int) (h : isHexDigit c) :
    hexCharToNumber c = hexDigitValue c ∧ hexDigitValue c < 16 := by
  unfold isHexDigit at h
  unfold hexCharToNumber hexDigitValue
  rcases h with ⟨h1, h2⟩ | ⟨h1, h2⟩ | ⟨h1, h2⟩
  · have a1 : ¬ c ≥ 0x61 := by omega
    have a2 : ¬ c ≥ 0x41 := by omega
    have a3 : 0x30 ≤ c ∧ c ≤ 0x39 := ⟨h1, h2⟩
    simp only [a1, a2, a3, if_true, if_false, and_self]
    omega
  · have a1 : ¬ c ≥ 0x61 := by omega
    have a2 : c ≥ 0x41 := by omega
    have a3 : ¬ (0x30 ≤ c ∧ c ≤ 0x39) := by omega
    have a4 : 0x41 ≤ c ∧ c ≤ 0x46 := ⟨h1, h2⟩
    simp only [a1, a2, a3, a4, if_true, if_false, and_self]
    omega
  · have a1 : c ≥ 0x61 := by omega
    have a3 : ¬ (0x30 ≤ c ∧ c ≤ 0x39) := by omega
    have a4 : ¬ (0x41 ≤ c ∧ c ≤ 0x46) := by omega
    have a5 : 0x61 ≤ c ∧ c ≤ 0x66 := ⟨h1, h2⟩
    simp only [a1, a3, a4, a5, if_true, if_false, and_self]
    omega

theorem shift_or_small : ∀ a < 16, ∀ b < 16, ((a <<< 4) ||| b) % 256 = 16 * a + b := by
  decide

theorem hexCharToNumber2_of_isHexDigit (high low : Int) (hh : isHexDigit high)
    (hl : isHexDigit low) :
    hexCharToNumber2 high low = 16 * hexDigitValue high + hexDigitValue low := by
  obtain ⟨e1, b1⟩ := hexCharToNumber_of_isHexDigit high hh
  obtain ⟨e2, b2⟩ := hexCharToNumber_of_isHexDigit low hl
  unfold hexCharToNumber2
  rw [e1, e2]
  exact shift_or_small _ b1 _ b2

theorem byteAt_eq_pairValue (line : Buffer) (k : Nat) (h0 : isHexDigit (line k))
    (h1 : isHexDigit (line (k + 1))) : byteAt line k = pairValue line k :=
  hexCharToNumber2_of_isHexDigit _ _ h0 h1

theorem bytesSum_eq_pairsSum (line : Buffer) (k : Nat) :
    ∀ n, (∀ j < 2 * n, isHexDigit (line (k + j))) → bytesSum line k n = pairsSum line k n
  | 0, _ => rfl
  | n + 1, h => by
    have ih := bytesSum_eq_pairsSum line k n (fun j hj => h j (by omega))
    have e := byteAt_eq_pairValue line (k + 2 * n) (h (2 * n) (by omega))
      (by have := h (2 * n + 1) (by omega); simpa [Nat.add_assoc] using this)
    simp only [bytesSum, pairsSum, ih, e]

/-! ## The data loop -/

theorem bytesSum_succ_left (line : Buffer) :
    ∀ n k, bytesSum line k (n + 1) = byteAt line k + bytesSum line (k + 2) n
  | 0, k => by simp [bytesSum]
  | n + 1, k => by
    have ih := bytesSum_succ_left line n k
    have e : k + 2 + 2 * n = k + 2 * (n + 1) := by omega
    rw [bytesSum, ih, bytesSum, e]
    omega

theorem dataLoop_spec (inBuffer : Buffer) (n : Nat) (hn : n ≤ DATA_BUFFER_LEN_MAX) :
    ∀ m fuel context i, i + m = n → m < fuel →
      ∃ context', dataLoop fuel context inBuffer (2 * n) i = Except.ok (context', n) ∧
        context'.currentState = context.currentState ∧
        context'.recordType = context.recordType ∧
        context'.expectedByteCount = context.expectedByteCount ∧
        context'.dataLen = context.dataLen ∧
        context'.addr = context.addr ∧
        (∀ j, context'.dataBuffer j =
          if i ≤ j ∧ j < n then byteAt inBuffer (2 * j) else context.dataBuffer j) ∧
        context'.checksum % 256 = (context.checksum + bytesSum inBuffer (2 * i) m) % 256
  | 0, fuel, context, i, him, hf => by
    obtain ⟨f, rfl⟩ : ∃ f, fuel = f + 1 := ⟨fuel - 1, by omega⟩
    have hi : i = n := by omega
    subst hi
    refine ⟨context, ?_, rfl, rfl, rfl, rfl, rfl, ?_, ?_⟩
    · have hc : ¬ (2 * i + 1 < 2 * i) := by omega
      simp only [dataLoop, hc, if_false]
    · intro j
      have hc : ¬ (i ≤ j ∧ j < i) := by omega
      simp only [hc, if_false]
    · simp [bytesSum]
  | m + 1, fuel, context, i, him, hf => by
    obtain ⟨f, rfl⟩ : ∃ f, fuel = f + 1 := ⟨fuel - 1, by omega⟩
    have hc1 : 2 * i + 1 < 2 * n := by omega
    have hc2 : i < DATA_BUFFER_LEN_MAX := by omega
    obtain ⟨c', e, h1, h2, h3, h4, h5, h6, h7⟩ :=
      dataLoop_spec inBuffer n hn m f
        { context with
          dataBuffer := fun j =>
            if j = i then hexCharToNumber2 (inBuffer (2 * i)) (inBuffer (2 * i + 1))
            else context.dataBuffer j
          checksum :=
            (context.checksum + hexCharToNumber2 (inBuffer (2 * i)) (inBuffer (2 * i + 1)))
              % 2 ^ 32 }
        (i + 1) (by omega) (by omega)
    refine ⟨c', ?_, h1, h2, h3, h4, h5, ?_, ?_⟩
    · simp only [dataLoop, hc1, hc2, if_true]
      exact e
    · intro j
      rw [h6 j]
      by_cases hj : j = i
      · subst hj
        have a1 : ¬ (j + 1 ≤ j ∧ j < n) := by omega
        have a2 : j ≤ j ∧ j < n := by omega
        rw [if_neg a1, if_pos a2]
        simp [byteAt]
      · by_cases hj2 : i + 1 ≤ j ∧ j < n
        · have a2 : i ≤ j ∧ j < n := by omega
          rw [if_pos hj2, if_pos a2]
        · have a2 : ¬ (i ≤ j ∧ j < n) := by omega
          rw [if_neg hj2, if_neg a2]
          simp [hj]
    · rw [h7, bytesSum_succ_left]
      have e2 : 2 * (i + 1) = 2 * i + 2 := by omega
      rw [e2]
      simp only [byteAt]
      norm_num
      omega

theorem dataLoop_overflow (inBuffer : Buffer) (len : Nat)
    (hlen : 2 * DATA_BUFFER_LEN_MAX + 1 < len) :
    ∀ m fuel context i, i + m = DATA_BUFFER_LEN_MAX → m < fuel →
      dataLoop fuel context inBuffer len i = Except.error (Fault.outOfBounds DATA_BUFFER_LEN_MAX)
  | 0, fuel, context, i, him, hf => by
    obtain ⟨f, rfl⟩ : ∃ f, fuel = f + 1 := ⟨fuel - 1, by omega⟩
    have hi : i = DATA_BUFFER_LEN_MAX := by omega
    subst hi
    have hc : 2 * DATA_BUFFER_LEN_MAX + 1 < len := hlen
    simp only [dataLoop, hc, if_true, lt_irrefl, if_false]
  | m + 1, fuel, context, i, him, hf => by
    obtain ⟨f, rfl⟩ : ∃ f, fuel = f + 1 := ⟨fuel - 1, by omega⟩
    have hc1 : 2 * i + 1 < len := by omega
    have hc2 : i < DATA_BUFFER_LEN_MAX := by omega
    simp only [dataLoop, hc1, hc2, if_true]
    exact dataLoop_overflow inBuffer len hlen m f _ (i + 1) (by omega) (by omega)

/-! ## One call of `newData`, state by state -/

theorem newData_waitForStart (p : HexParser) (inBuffer : Buffer) (len : Nat)
    (h : p.currentState = State.waitForStart) :
    p.newData inBuffer len =
      if len = 1 ∧ inBuffer 0 = 0x3a then
        Except.ok ({ p with recordType := RecordType.Invalid,
                            currentState := State.waitForByteCount }, 2)
      else
        Except.ok ({ p with recordType := RecordType.Invalid,
                            currentState := State.error }, 1) := by
  unfold HexParser.newData
  simp only [h]
  by_cases h1 : len = 1
  · by_cases h2 : inBuffer 0 = 0x3a
    · simp [h1, h2]
    · simp [h1, h2]
  · simp [h1]

theorem newData_waitForByteCount (p : HexParser) (inBuffer : Buffer) (len : Nat)
    (h : p.currentState = State.waitForByteCount) :
    p.newData inBuffer len =
      if len = 2 then
        Except.ok ({ p with
          expectedByteCount := byteAt inBuffer 0 % 2 ^ 16
          checksum := (p.checksum + byteAt inBuffer 0 % 2 ^ 16) % 2 ^ 32
          currentState := State.waitForAddress }, 4)
      else Except.ok ({ p with currentState := State.error }, 2) := by
  unfold HexParser.newData
  simp only [h]
  by_cases h1 : len = 2
  · simp [h1, byteAt]
  · simp [h1]

theorem newData_waitForAddress (p : HexParser) (inBuffer : Buffer) (len : Nat)
    (h : p.currentState = State.waitForAddress) :
    p.newData inBuffer len =
      if len = 4 then
        Except.ok ({ p with
          checksum := ((p.checksum + byteAt inBuffer 0) % 2 ^ 32 + byteAt inBuffer 2) % 2 ^ 32
          addr := (byteAt inBuffer 0 <<< 8) ||| byteAt inBuffer 2
          currentState := State.waitForRecordType }, 2)
      else Except.ok ({ p with currentState := State.error }, 4) := by
  unfold HexParser.newData
  simp only [h]
  by_cases h1 : len = 4
  · simp [h1, byteAt]
  · simp [h1]

theorem newData_waitForRecordType (p : HexParser) (inBuffer : Buffer) (len : Nat)
    (h : p.currentState = State.waitForRecordType) :
    p.newData inBuffer len =
      if len = 2 then
        if inBuffer 0 = 0x30 ∧ inBuffer 1 = 0x30 then
          Except.ok ({ p with
            checksum := (p.checksum + 0x00) % 2 ^ 32
            currentState := State.waitForData }, p.expectedByteCount * 2)
        else if inBuffer 0 = 0x30 ∧ inBuffer 1 = 0x31 then
          Except.ok ({ p with
            checksum := (p.checksum + 0x01) % 2 ^ 32
            recordType := RecordType.EndOfFile
            currentState := State.waitForChecksum }, 2)
        else Except.ok ({ p with currentState := State.error }, 1)
      else Except.ok ({ p with currentState := State.error }, 0) := by
  unfold HexParser.newData
  simp only [h]
  by_cases h1 : len = 2
  · simp [h1]
  · simp [h1]

theorem newData_waitForData_wrongLen (p : HexParser) (inBuffer : Buffer) (len : Nat)
    (h : p.currentState = State.waitForData) (hlen : len ≠ p.expectedByteCount * 2) :
    p.newData inBuffer len = Except.ok ({ p with currentState := State.error }, 0) := by
  unfold HexParser.newData
  simp [h, hlen]

theorem newData_waitForData (p : HexParser) (inBuffer : Buffer)
    (h : p.currentState = State.waitForData)
    (hn : p.expectedByteCount ≤ DATA_BUFFER_LEN_MAX) :
    ∃ p', p.newData inBuffer (p.expectedByteCount * 2) = Except.ok (p', 2) ∧
      p'.currentState = State.waitForChecksum ∧
      p'.recordType = RecordType.Data ∧
      p'.expectedByteCount = p.expectedByteCount ∧
      p'.dataLen = p.expectedByteCount ∧
      p'.addr = p.addr ∧
      (∀ j, p'.dataBuffer j =
        if j < p.expectedByteCount then byteAt inBuffer (2 * j) else p.dataBuffer j) ∧
      p'.checksum % 256 = (p.checksum + bytesSum inBuffer 0 p.expectedByteCount) % 256 := by
  obtain ⟨c', e, h1, h2, h3, h4, h5, h6, h7⟩ :=
    dataLoop_spec inBuffer p.expectedByteCount hn p.expectedByteCount
      (p.expectedByteCount * 2 + 1) p 0 (by omega) (by omega)
  rw [Nat.mul_comm 2 p.expectedByteCount] at e
  refine ⟨{ c' with dataLen := p.expectedByteCount, recordType := RecordType.Data,
                    currentState := State.waitForChecksum }, ?_, rfl, rfl, h3, rfl, h5, ?_, ?_⟩
  · unfold HexParser.newData
    simp [h, e]
  · intro j
    simpa using h6 j
  · simpa using h7

theorem newData_waitForData_overflow (p : HexParser) (inBuffer : Buffer)
    (h : p.currentState = State.waitForData)
    (hn : DATA_BUFFER_LEN_MAX < p.expectedByteCount) :
    p.newData inBuffer (p.expectedByteCount * 2)
      = Except.error (Fault.outOfBounds DATA_BUFFER_LEN_MAX) := by
  have e := dataLoop_overflow inBuffer (p.expectedByteCount * 2) (by omega)
    DATA_BUFFER_LEN_MAX (p.expectedByteCount * 2 + 1) p 0 (by omega)
    (by unfold DATA_BUFFER_LEN_MAX at *; omega)
  unfold HexParser.newData
  simp [h, e]

theorem newData_waitForChecksum (p : HexParser) (inBuffer : Buffer) (len : Nat)
    (h : p.currentState = State.waitForChecksum) :
    p.newData inBuffer len =
      if len = 2 then
        if (p.checksum + byteAt inBuffer 0) % 2 ^ 32 % 256 = 0 then
          Except.ok ({ p with
            checksum := (p.checksum + byteAt inBuffer 0) % 2 ^ 32
            currentState := State.waitForStart }, 1)
        else
          Except.ok ({ p with
            checksum := (p.checksum + byteAt inBuffer 0) % 2 ^ 32
            currentState := State.error }, 0)
      else Except.ok ({ p with currentState := State.error }, 0) := by
  have hand : ∀ x : Nat, x &&& 0xff = x % 256 := fun x =>
    Nat.and_pow_two_sub_one_eq_mod x 8
  unfold HexParser.newData
  simp only [h]
  by_cases h1 : len = 2
  · by_cases h2 : (p.checksum + byteAt inBuffer 0) % 2 ^ 32 % 256 = 0
    · simp [h1, h2, hand, byteAt] at *
    · simp [h1, h2, hand, byteAt] at *
  · simp [h1]

theorem newData_error (p : HexParser) (inBuffer : Buffer) (len : Nat)
    (h : p.currentState = State.error) :
    p.newData inBuffer len = Except.ok (p, 0) := by
  unfold HexParser.newData
  simp [h]

/-- The only fault a call of `newData` can end in is the store past the end of `dataBuffer`
made by a data chunk of the requested length when the expected byte count exceeds the
buffer; in particular the fuel of the data loop never runs out. -/
theorem newData_fault_iff (p : HexParser) (inBuffer : Buffer) (len : Nat) (f : Fault) :
    p.newData inBuffer len = Except.error f ↔
      p.currentState = State.waitForData ∧ len = p.expectedByteCount * 2 ∧
        DATA_BUFFER_LEN_MAX < p.expectedByteCount ∧ f = Fault.outOfBounds DATA_BUFFER_LEN_MAX := by
  cases hs : p.currentState with
  | waitForStart =>
    rw [newData_waitForStart p inBuffer len hs]
    split <;> simp
  | waitForByteCount =>
    rw [newData_waitForByteCount p inBuffer len hs]
    split <;> simp
  | waitForAddress =>
    rw [newData_waitForAddress p inBuffer len hs]
    split <;> simp
  | waitForRecordType =>
    rw [newData_waitForRecordType p inBuffer len hs]
    split
    · split
      · simp
      · split <;> simp
    · simp
  | waitForData =>
    by_cases hlen : len = p.expectedByteCount * 2
    · subst hlen
      by_cases hn : p.expectedByteCount ≤ DATA_BUFFER_LEN_MAX
      · obtain ⟨q, e, _⟩ := newData_waitForData p inBuffer hs hn
        rw [e]
        have hn' : ¬ DATA_BUFFER_LEN_MAX < p.expectedByteCount := by omega
        simp [hn']
      · have hn' : DATA_BUFFER_LEN_MAX < p.expectedByteCount := by omega
        rw [newData_waitForData_overflow p inBuffer hs hn']
        constructor
        · intro h
          cases h
          exact ⟨rfl, rfl, hn', rfl⟩
        · rintro ⟨_, _, _, h⟩
          rw [h]
    · rw [newData_waitForData_wrongLen p inBuffer len hs hlen]
      simp [hlen]
  | waitForChecksum =>
    rw [newData_waitForChecksum p inBuffer len hs]
    split
    · split <;> simp
    · simp
  | error =>
    rw [newData_error p inBuffer len hs]
    simp

/-! ## Error phase and length mismatches -/

theorem run_newData_error (p : HexParser) (h : p.currentState = State.error) :
    ∀ calls : List (Buffer × Nat),
      run p (calls.map fun c => Call.newData c.1 c.2) = Except.ok p
  | [] => rfl
  | c :: calls => by
    simp only [List.map_cons, run, Call.apply, newData_error p c.1 c.2 h]
    exact run_newData_error p h calls

/-- C7: in the Error phase `newData` returns 0 and changes no data member of the parser,
for every buffer and every length (so `getError()` stays non-zero); hence no sequence of
`newData` calls leaves the Error phase, while `reset()` does. -/
theorem error_phase_is_terminal (p : HexParser) (h : p.currentState = State.error) :
    p.getError ≠ 0 ∧
    (∀ (inBuffer : Buffer) (len : Nat), p.newData inBuffer len = Except.ok (p, 0)) ∧
    (∀ calls : List (Buffer × Nat),
      run p (calls.map fun c => Call.newData c.1 c.2) = Except.ok p) ∧
    p.reset.getError = 0 := by
  refine ⟨?_, fun inBuffer len => newData_error p inBuffer len h, run_newData_error p h, ?_⟩
  · simp [HexParser.getError, h]
  · simp [HexParser.getError, HexParser.reset]

/-- The Error-phase statement at a parser that entered the Error phase holding a record. -/
theorem error_phase_is_terminal_witness :
    exampleErrorParser.currentState = State.error ∧
    (exampleErrorParser.getError ≠ 0 ∧
      (∀ (inBuffer : Buffer) (len : Nat),
        exampleErrorParser.newData inBuffer len = Except.ok (exampleErrorParser, 0)) ∧
      (∀ calls : List (Buffer × Nat),
        run exampleErrorParser (calls.map fun c => Call.newData c.1 c.2)
          = Except.ok exampleErrorParser) ∧
      exampleErrorParser.reset.getError = 0) :=
  ⟨rfl, error_phase_is_terminal exampleErrorParser rfl⟩

theorem getError_ne_zero_iff (p : HexParser) :
    p.getError ≠ 0 ↔ p.currentState = State.error := by
  unfold HexParser.getError
  by_cases h : p.currentState = State.error <;> simp [h]

theorem wrong_length_step (p : HexParser) (inBuffer : Buffer) (len : Nat)
    (hphase : p.currentState ≠ State.error) (hlen : len ≠ expectedLength p) :
    ∃ p', p'.currentState = State.error ∧
      p.newData inBuffer len =
        Except.ok (p', match p.currentState with
          | State.waitForStart => 1
          | State.waitForByteCount => 2
          | State.waitForAddress => 4
          | _ => 0) := by
  unfold expectedLength at hlen
  cases hs : p.currentState with
  | waitForStart =>
    rw [hs] at hlen
    refine ⟨{ p with recordType := RecordType.Invalid, currentState := State.error }, rfl, ?_⟩
    rw [newData_waitForStart p inBuffer len hs]
    have : ¬ (len = 1 ∧ inBuffer 0 = 0x3a) := fun c => hlen c.1
    rw [if_neg this]
  | waitForByteCount =>
    rw [hs] at hlen
    refine ⟨{ p with currentState := State.error }, rfl, ?_⟩
    rw [newData_waitForByteCount p inBuffer len hs, if_neg hlen]
  | waitForAddress =>
    rw [hs] at hlen
    refine ⟨{ p with currentState := State.error }, rfl, ?_⟩
    rw [newData_waitForAddress p inBuffer len hs, if_neg hlen]
  | waitForRecordType =>
    rw [hs] at hlen
    refine ⟨{ p with currentState := State.error }, rfl, ?_⟩
    rw [newData_waitForRecordType p inBuffer len hs, if_neg hlen]
  | waitForData =>
    rw [hs] at hlen
    refine ⟨{ p with currentState := State.error }, rfl, ?_⟩
    rw [newData_waitForData_wrongLen p inBuffer len hs hlen]
  | waitForChecksum =>
    rw [hs] at hlen
    refine ⟨{ p with currentState := State.error }, rfl, ?_⟩
    rw [newData_waitForChecksum p inBuffer len hs, if_neg hlen]
  | error => exact absurd hs hphase

/-- C8: in every non-Error phase a `newData` call whose length differs from the length
that phase expects moves the parser to the Error phase, whatever the buffer holds:
`getError()` is non-zero afterwards. -/
theorem wrong_length_enters_error (p : HexParser) (inBuffer : Buffer) (len : Nat)
    (hphase : p.currentState ≠ State.error) (hlen : len ≠ expectedLength p) :
    ∃ p' r, p.newData inBuffer len = Except.ok (p', r) ∧
      p'.currentState = State.error ∧ p'.getError ≠ 0 := by
  obtain ⟨p', h1, h2⟩ := wrong_length_step p inBuffer len hphase hlen
  exact ⟨p', _, h2, h1, (getError_ne_zero_iff p').2 h1⟩

/-- A record-type chunk of length 3 instead of 2 moves the parser to the Error phase. -/
theorem wrong_length_enters_error_witness :
    exampleAwaitingRecordType.currentState ≠ State.error ∧
    3 ≠ expectedLength exampleAwaitingRecordType ∧
    ∃ p' r, exampleAwaitingRecordType.newData (cstr "000") 3 = Except.ok (p', r) ∧
      p'.currentState = State.error ∧ p'.getError ≠ 0 :=
  ⟨by decide, by decide,
    wrong_length_enters_error exampleAwaitingRecordType (cstr "000") 3 (by decide) (by decide)⟩

/-- C9, as stated, fails: after `:`, `10`, `0000` the parser waits for the record type
(expected length 2); a call with length 3 returns 0, which is not positive. -/
theorem wrong_length_return_counterexample :
    ∃ p p', run (HexParser.new fun _ => 0)
        [Call.newData (cstr ":") 1, Call.newData (cstr "10") 2, Call.newData (cstr "0000") 4]
        = Except.ok p ∧
      p.currentState = State.waitForRecordType ∧
      3 ≠ expectedLength p ∧
      p.newData (cstr "000") 3 = Except.ok (p', 0) :=
  ⟨_, _, rfl, rfl, by decide, rfl⟩

/-- C9, amended: in a non-Error phase a `newData` call whose length differs from the
expected one returns 1 in the start phase, 2 in the byte-count phase and 4 in the address
phase (positive values), and returns 0 in the record-type, data and checksum phases. -/
theorem wrong_length_return_value (p : HexParser) (inBuffer : Buffer) (len : Nat)
    (hphase : p.currentState ≠ State.error) (hlen : len ≠ expectedLength p) :
    ∃ p' r, p.newData inBuffer len = Except.ok (p', r) ∧
      (p.currentState = State.waitForStart → r = 1) ∧
      (p.currentState = State.waitForByteCount → r = 2) ∧
      (p.currentState = State.waitForAddress → r = 4) ∧
      (p.currentState = State.waitForRecordType ∨ p.currentState = State.waitForData ∨
        p.currentState = State.waitForChecksum → r = 0) := by
  obtain ⟨p', _, h2⟩ := wrong_length_step p inBuffer len hphase hlen
  refine ⟨p', _, h2, ?_, ?_, ?_, ?_⟩
  · intro h; simp [h]
  · intro h; simp [h]
  · intro h; simp [h]
  · rintro (h | h | h) <;> simp [h]

/-- A record-type chunk of length 3 instead of 2: the values a mismatch returns. -/
theorem wrong_length_return_value_witness :
    exampleAwaitingRecordType.currentState ≠ State.error ∧
    3 ≠ expectedLength exampleAwaitingRecordType ∧
    ∃ p' r, exampleAwaitingRecordType.newData (cstr "000") 3 = Except.ok (p', r) ∧
      (exampleAwaitingRecordType.currentState = State.waitForStart → r = 1) ∧
      (exampleAwaitingRecordType.currentState = State.waitForByteCount → r = 2) ∧
      (exampleAwaitingRecordType.currentState = State.waitForAddress → r = 4) ∧
      (exampleAwaitingRecordType.currentState = State.waitForRecordType ∨
        exampleAwaitingRecordType.currentState = State.waitForData ∨
        exampleAwaitingRecordType.currentState = State.waitForChecksum → r = 0) :=
  ⟨by decide, by decide,
    wrong_length_return_value exampleAwaitingRecordType (cstr "000") 3 (by decide) (by decide)⟩

/-! ## Call sequences: the record type while a record is in flight -/

theorem inFlight_new (uninit : Nat → Nat) : InFlight (HexParser.new uninit) := by
  simp [InFlight, HexParser.new]

theorem inFlight_newData (p p' : HexParser) (inBuffer : Buffer) (len r : Nat)
    (hp : InFlight p) (h : p.newData inBuffer len = Except.ok (p', r)) : InFlight p' := by
  obtain ⟨hp1, hp2⟩ := hp
  cases hs : p.currentState with
  | waitForStart =>
    rw [newData_waitForStart p inBuffer len hs] at h
    split at h <;> cases h <;> simp [InFlight]
  | waitForByteCount =>
    have hi := hp1 (Or.inl hs)
    rw [newData_waitForByteCount p inBuffer len hs] at h
    split at h <;> cases h <;> simp [InFlight, hi]
  | waitForAddress =>
    have hi := hp1 (Or.inr (Or.inl hs))
    rw [newData_waitForAddress p inBuffer len hs] at h
    split at h <;> cases h <;> simp [InFlight, hi]
  | waitForRecordType =>
    have hi := hp1 (Or.inr (Or.inr (Or.inl hs)))
    rw [newData_waitForRecordType p inBuffer len hs] at h
    split at h
    · split at h
      · cases h; simp [InFlight, hi]
      · split at h <;> cases h <;> simp [InFlight]
    · cases h; simp [InFlight]
  | waitForData =>
    by_cases hlen : len = p.expectedByteCount * 2
    · subst hlen
      by_cases hn : p.expectedByteCount ≤ DATA_BUFFER_LEN_MAX
      · obtain ⟨q, e, h1, h2, _⟩ := newData_waitForData p inBuffer hs hn
        rw [e] at h
        cases h
        simp [InFlight, h1, h2]
      · rw [newData_waitForData_overflow p inBuffer hs (by omega)] at h
        cases h
    · rw [newData_waitForData_wrongLen p inBuffer len hs hlen] at h
      cases h
      simp [InFlight]
  | waitForChecksum =>
    rw [newData_waitForChecksum p inBuffer len hs] at h
    split at h
    · split at h <;> cases h <;> simp [InFlight]
    · cases h; simp [InFlight]
  | error =>
    rw [newData_error p inBuffer len hs] at h
    cases h
    simp [InFlight, hs]

theorem inFlight_apply (p p' : HexParser) (c : Call) (hp : InFlight p)
    (h : c.apply p = Except.ok p') : InFlight p' := by
  cases c with
  | newData inBuffer len =>
    simp only [Call.apply] at h
    split at h
    · cases h
    · rename_i q r e
      cases h
      exact inFlight_newData p _ inBuffer len r hp e
  | reset =>
    simp only [Call.apply] at h
    cases h
    simp [InFlight, HexParser.reset]

theorem inFlight_run : ∀ (cs : List Call) (p p' : HexParser), InFlight p →
    run p cs = Except.ok p' → InFlight p'
  | [], p, p', hp, h => by
    simp only [run] at h
    cases h
    exact hp
  | c :: cs, p, p', hp, h => by
    simp only [run] at h
    split at h
    · cases h
    · rename_i q e
      exact inFlight_run cs q p' (inFlight_apply p q c hp e) h

theorem run_concat : ∀ (cs : List Call) (c : Call) (p p' : HexParser),
    run p (cs ++ [c]) = Except.ok p' ↔ ∃ q, run p cs = Except.ok q ∧ c.apply q = Except.ok p'
  | [], c, p, p' => by
    simp only [List.nil_append, run]
    constructor
    · intro h
      split at h
      · cases h
      · rename_i q e
        cases h
        exact ⟨p, rfl, e⟩
    · rintro ⟨q, hq, e⟩
      cases hq
      rw [e]
  | d :: cs, c, p, p' => by
    simp only [List.cons_append, run]
    cases hd : d.apply p with
    | error f => simp
    | ok q => simpa using run_concat cs c q p'

/-- C6, as stated, fails: after the record-type chunk `01` of an End-of-File record, and
after the data chunk of a Data record, the checksum is still outstanding and yet
`getRecordType()` is not `Invalid`. -/
theorem recordType_in_flight_counterexample :
    (∃ p, run (HexParser.new fun _ => 0)
        [Call.newData (cstr ":") 1, Call.newData (cstr "00") 2, Call.newData (cstr "0000") 4,
          Call.newData (cstr "01") 2] = Except.ok p ∧
      p.currentState = State.waitForChecksum ∧ p.getRecordType = RecordType.EndOfFile) ∧
    (∃ p, run (HexParser.new fun _ => 0)
        [Call.newData (cstr ":") 1, Call.newData (cstr "01") 2, Call.newData (cstr "0100") 4,
          Call.newData (cstr "00") 2, Call.newData (cstr "01") 2] = Except.ok p ∧
      p.currentState = State.waitForChecksum ∧ p.getRecordType = RecordType.Data) :=
  ⟨⟨_, rfl, rfl, rfl⟩, ⟨_, rfl, rfl, rfl⟩⟩

/-- C6, amended: in every state reached from a new parser, `getRecordType()` is `Invalid`
from the accepted start delimiter until the record-type chunk `01` (End-of-File) or the
data chunk (Data) is accepted, that is while byte count, address, record type or data are
awaited; while the checksum is awaited it is already `EndOfFile` or `Data`, set by the
record-type chunk and the data chunk respectively. -/
theorem recordType_in_flight (uninit : Nat → Nat) (cs : List Call) (p : HexParser)
    (h : run (HexParser.new uninit) cs = Except.ok p) :
    ((p.currentState = State.waitForByteCount ∨ p.currentState = State.waitForAddress ∨
      p.currentState = State.waitForRecordType ∨ p.currentState = State.waitForData) →
        p.getRecordType = RecordType.Invalid) ∧
    (p.currentState = State.waitForChecksum →
        p.getRecordType = RecordType.Data ∨ p.getRecordType = RecordType.EndOfFile) ∧
    (∀ (inBuffer : Buffer) (len r : Nat) (p' : HexParser),
      p.currentState = State.waitForRecordType →
      p.newData inBuffer len = Except.ok (p', r) →
      p'.currentState = State.waitForChecksum → p'.getRecordType = RecordType.EndOfFile) ∧
    (∀ (inBuffer : Buffer) (len r : Nat) (p' : HexParser),
      p.currentState = State.waitForData →
      p.newData inBuffer len = Except.ok (p', r) →
      p'.currentState = State.waitForChecksum → p'.getRecordType = RecordType.Data) := by
  obtain ⟨h1, h2⟩ := inFlight_run cs _ p (inFlight_new uninit) h
  refine ⟨h1, h2, ?_, ?_⟩
  · intro inBuffer len r p' hs e hs'
    rw [newData_waitForRecordType p inBuffer len hs] at e
    split at e
    · split at e
      · cases e; simp at hs'
      · split at e
        · cases e; rfl
        · cases e; simp at hs'
    · cases e; simp at hs'
  · intro inBuffer len r p' hs e hs'
    by_cases hlen : len = p.expectedByteCount * 2
    · subst hlen
      by_cases hn : p.expectedByteCount ≤ DATA_BUFFER_LEN_MAX
      · obtain ⟨q, e', _, h2', _⟩ := newData_waitForData p inBuffer hs hn
        rw [e'] at e
        cases e
        exact h2'
      · rw [newData_waitForData_overflow p inBuffer hs (by omega)] at e
        cases e
    · rw [newData_waitForData_wrongLen p inBuffer len hs hlen] at e
      cases e
      simp at hs'

/-- After `:`, `10`, `0000` the record type is awaited and `getRecordType()` is `Invalid`. -/
theorem recordType_in_flight_witness :
    run (HexParser.new fun _ => 0)
        [Call.newData (cstr ":") 1, Call.newData (cstr "10") 2, Call.newData (cstr "0000") 4]
      = Except.ok exampleAwaitingRecordType ∧
    exampleAwaitingRecordType.getRecordType = RecordType.Invalid :=
  ⟨rfl, (recordType_in_flight (fun _ => 0)
    [Call.newData (cstr ":") 1, Call.newData (cstr "10") 2, Call.newData (cstr "0000") 4]
    exampleAwaitingRecordType rfl).1 (Or.inr (Or.inr (Or.inl rfl)))⟩

/-! ## Call sequences: the ready flag -/

theorem recordReady_eq_true_iff (p : HexParser) :
    p.recordReady = true ↔
      p.currentState = State.waitForStart ∧ p.recordType ≠ RecordType.Invalid := by
  simp [HexParser.recordReady]

theorem ready_after_newData (q p : HexParser) (inBuffer : Buffer) (len r : Nat)
    (hq : InFlight q) (e : q.newData inBuffer len = Except.ok (p, r)) :
    p.recordReady = true ↔
      q.currentState = State.waitForChecksum ∧ len = 2 ∧
        (q.checksum + byteAt inBuffer 0) % 2 ^ 32 % 256 = 0 ∧ r = 1 := by
  rw [recordReady_eq_true_iff]
  cases hs : q.currentState with
  | waitForStart =>
    rw [newData_waitForStart q inBuffer len hs] at e
    split at e <;> cases e <;> simp
  | waitForByteCount =>
    rw [newData_waitForByteCount q inBuffer len hs] at e
    split at e <;> cases e <;> simp
  | waitForAddress =>
    rw [newData_waitForAddress q inBuffer len hs] at e
    split at e <;> cases e <;> simp
  | waitForRecordType =>
    rw [newData_waitForRecordType q inBuffer len hs] at e
    split at e
    · split at e
      · cases e; simp
      · split at e <;> cases e <;> simp
    · cases e; simp
  | waitForData =>
    by_cases hlen : len = q.expectedByteCount * 2
    · subst hlen
      by_cases hn : q.expectedByteCount ≤ DATA_BUFFER_LEN_MAX
      · obtain ⟨q', e', h1, _⟩ := newData_waitForData q inBuffer hs hn
        rw [e'] at e
        cases e
        simp [h1]
      · rw [newData_waitForData_overflow q inBuffer hs (by omega)] at e
        cases e
    · rw [newData_waitForData_wrongLen q inBuffer len hs hlen] at e
      cases e
      simp
  | waitForChecksum =>
    have hrt : q.recordType ≠ RecordType.Invalid := by
      rcases hq.2 hs with h | h <;> simp [h]
    rw [newData_waitForChecksum q inBuffer len hs] at e
    split at e
    · rename_i hl
      split at e
      · rename_i hc
        cases e
        have hc' : (q.checksum + byteAt inBuffer 0) % 4294967296 % 256 = 0 := by
          simpa using hc
        simp [hrt, hl, hc']
      · rename_i hc
        cases e
        have hc' : ¬ (q.checksum + byteAt inBuffer 0) % 4294967296 % 256 = 0 := by
          simpa using hc
        simp [hc']
    · rename_i hl
      cases e
      simp [hl]
  | error =>
    rw [newData_error q inBuffer len hs] at e
    cases e
    simp [hs]

/-- C5: after any sequence of `newData` and `reset` calls on a new parser, `recordReady()`
is true exactly when the last call was a `newData` call made while the checksum was
awaited, with length 2, that brought the low 8 bits of the accumulator to zero and
returned 1.  In particular it is false on a new parser, in every phase other than the
start-awaiting one (so after the start, byte-count, address, record-type and data chunks
and in the Error phase), and after `reset()`. -/
theorem recordReady_iff_checksum_validated (uninit : Nat → Nat) (cs : List Call)
    (p : HexParser) (h : run (HexParser.new uninit) cs = Except.ok p) :
    (p.recordReady = true ↔
      ∃ (cs' : List Call) (inBuffer : Buffer) (q : HexParser),
        cs = cs' ++ [Call.newData inBuffer 2] ∧
        run (HexParser.new uninit) cs' = Except.ok q ∧
        q.currentState = State.waitForChecksum ∧
        (q.checksum + byteAt inBuffer 0) % 2 ^ 32 % 256 = 0 ∧
        q.newData inBuffer 2 = Except.ok (p, 1)) ∧
    (HexParser.new uninit).recordReady = false ∧
    (p.currentState ≠ State.waitForStart → p.recordReady = false) ∧
    p.reset.recordReady = false := by
  refine ⟨?_, ?_, ?_, ?_⟩
  · constructor
    · intro hr
      rcases List.eq_nil_or_concat cs with hnil | ⟨cs', c, hcs⟩
      · subst hnil
        simp only [run] at h
        cases h
        simp [HexParser.recordReady, HexParser.new] at hr
      · rw [List.concat_eq_append] at hcs
        subst hcs
        obtain ⟨q, hq, hc⟩ := (run_concat cs' c _ p).1 h
        have hinv := inFlight_run cs' _ q (inFlight_new uninit) hq
        cases c with
        | reset =>
          simp only [Call.apply] at hc
          cases hc
          simp [HexParser.recordReady, HexParser.reset] at hr
        | newData inBuffer len =>
          simp only [Call.apply] at hc
          split at hc
          · cases hc
          · rename_i p1 r e
            cases hc
            obtain ⟨h1, h2, h3, h4⟩ := (ready_after_newData q _ inBuffer len r hinv e).1 hr
            subst h2
            subst h4
            exact ⟨cs', inBuffer, q, rfl, hq, h1, h3, e⟩
    · rintro ⟨cs', inBuffer, q, _, hq, h1, h3, e⟩
      have hinv := inFlight_run cs' _ q (inFlight_new uninit) hq
      exact (ready_after_newData q p inBuffer 2 1 hinv e).2 ⟨h1, rfl, h3, rfl⟩
  · simp [HexParser.recordReady, HexParser.new]
  · intro hs
    simp [HexParser.recordReady, hs]
  · simp [HexParser.recordReady, HexParser.reset]

/-- The ready flag after the End-of-File line `:00000001FF`, fed chunk by chunk. -/
theorem recordReady_iff_checksum_validated_witness :
    run (HexParser.new fun _ => 0) exampleEofCalls = Except.ok exampleReadyEof ∧
    (exampleReadyEof.recordReady = true ↔
      ∃ (cs' : List Call) (inBuffer : Buffer) (q : HexParser),
        exampleEofCalls = cs' ++ [Call.newData inBuffer 2] ∧
        run (HexParser.new fun _ => 0) cs' = Except.ok q ∧
        q.currentState = State.waitForChecksum ∧
        (q.checksum + byteAt inBuffer 0) % 2 ^ 32 % 256 = 0 ∧
        q.newData inBuffer 2 = Except.ok (exampleReadyEof, 1)) :=
  ⟨rfl, (recordReady_iff_checksum_validated (fun _ => 0) exampleEofCalls exampleReadyEof rfl).1⟩

/-! ## Feeding one record -/

theorem advance_advance (pos : Buffer) (a b : Nat) :
    advance (advance pos a) b = advance pos (a + b) := by
  funext i
  simp [advance, Nat.add_assoc]

theorem byteAt_advance (pos : Buffer) (a k : Nat) :
    byteAt (advance pos a) k = byteAt pos (a + k) := by
  simp [byteAt, advance, Nat.add_assoc]

theorem bytesSum_advance (pos : Buffer) (a k : Nat) :
    ∀ n, bytesSum (advance pos a) k n = bytesSum pos (a + k) n
  | 0 => rfl
  | n + 1 => by
    simp only [bytesSum, bytesSum_advance pos a k n, byteAt_advance, Nat.add_assoc]

/-- The first four chunks of a line `: BB AAAA TT`, fed to a parser that awaits a start
delimiter, up to the point where the record type is awaited. -/
theorem header_steps (q : HexParser) (line : Buffer)
    (hs : q.currentState = State.waitForStart) (h0 : line 0 = 0x3a) :
    ∃ q1 q2 q3,
      q.newData line 1 = Except.ok (q1, 2) ∧
      q1.newData (advance line 1) 2 = Except.ok (q2, 4) ∧
      q2.newData (advance line 3) 4 = Except.ok (q3, 2) ∧
      q1.currentState = State.waitForByteCount ∧
      q2.currentState = State.waitForAddress ∧
      q3.currentState = State.waitForRecordType ∧
      q3.recordType = RecordType.Invalid ∧
      q3.expectedByteCount = byteAt line 1 ∧
      q3.dataLen = q.dataLen ∧
      q3.dataBuffer = q.dataBuffer ∧
      q3.addr = (byteAt line 3 <<< 8) ||| byteAt line 5 ∧
      q3.checksum % 256 = (q.checksum + byteAt line 1 + byteAt line 3 + byteAt line 5) % 256 := by
  have hb := byteAt_lt line 1
  have hmod : byteAt line 1 % 2 ^ 16 = byteAt line 1 := Nat.mod_eq_of_lt (by omega)
  have e1 := newData_waitForStart q line 1 hs
  rw [if_pos ⟨rfl, h0⟩] at e1
  have e2 := newData_waitForByteCount
    { q with recordType := RecordType.Invalid, currentState := State.waitForByteCount }
    (advance line 1) 2 rfl
  rw [if_pos rfl] at e2
  have e3 := newData_waitForAddress
    { q with
      recordType := RecordType.Invalid
      expectedByteCount := byteAt (advance line 1) 0 % 2 ^ 16
      checksum := (q.checksum + byteAt (advance line 1) 0 % 2 ^ 16) % 2 ^ 32
      currentState := State.waitForAddress }
    (advance line 3) 4 rfl
  rw [if_pos rfl] at e3
  refine ⟨_, _, _, e1, e2, e3, ?_⟩
  · refine ⟨rfl, rfl, rfl, rfl, ?_, rfl, rfl, ?_, ?_⟩
    · simp only [byteAt_advance, hmod]
    · simp only [byteAt_advance]
    · simp only [byteAt_advance, hmod]
      norm_num

/-- The six chunks of a Data line `: BB AAAA 00 DD.. CC` whose byte count fits the data
buffer, fed to a parser that awaits a start delimiter: every call, what it returns, and
the decoded record. -/
theorem data_line_steps (q : HexParser) (line : Buffer)
    (hs : q.currentState = State.waitForStart) (h0 : line 0 = 0x3a)
    (h7 : line 7 = 0x30) (h8 : line 8 = 0x30)
    (hbb : byteAt line 1 ≤ DATA_BUFFER_LEN_MAX) :
    ∃ q1 q2 q3 q4 q5 q6 r,
      q.newData line 1 = Except.ok (q1, 2) ∧
      q1.newData (advance line 1) 2 = Except.ok (q2, 4) ∧
      q2.newData (advance line 3) 4 = Except.ok (q3, 2) ∧
      q3.newData (advance line 7) 2 = Except.ok (q4, byteAt line 1 * 2) ∧
      q4.newData (advance line 9) (byteAt line 1 * 2) = Except.ok (q5, 2) ∧
      q5.newData (advance line (9 + byteAt line 1 * 2)) 2 = Except.ok (q6, r) ∧
      q1.currentState = State.waitForByteCount ∧
      q2.currentState = State.waitForAddress ∧
      q3.currentState = State.waitForRecordType ∧
      q4.currentState = State.waitForData ∧
      q5.currentState = State.waitForChecksum ∧
      q6.recordType = RecordType.Data ∧
      q6.expectedByteCount = byteAt line 1 ∧
      q6.dataLen = byteAt line 1 ∧
      q6.addr = (byteAt line 3 <<< 8) ||| byteAt line 5 ∧
      (∀ j, q6.dataBuffer j =
        if j < byteAt line 1 then byteAt line (9 + 2 * j) else q.dataBuffer j) ∧
      q6.checksum % 256 = (q.checksum + dataByteSum line) % 256 ∧
      (if (q.checksum + dataByteSum line) % 256 = 0
        then q6.currentState = State.waitForStart ∧ r = 1
        else q6.currentState = State.error ∧ r = 0) := by
  obtain ⟨q1, q2, q3, e1, e2, e3, s1, s2, s3, t3, b3, l3, d3, a3, c3⟩ :=
    header_steps q line hs h0
  have e4 := newData_waitForRecordType q3 (advance line 7) 2 s3
  have h7' : advance line 7 0 = 0x30 := h7
  have h8' : advance line 7 1 = 0x30 := h8
  rw [if_pos rfl, if_pos ⟨h7', h8'⟩, b3] at e4
  have hbb4 : ({ q3 with checksum := (q3.checksum + 0x00) % 2 ^ 32,
                         currentState := State.waitForData } : HexParser).expectedByteCount
      ≤ DATA_BUFFER_LEN_MAX := by
    show q3.expectedByteCount ≤ DATA_BUFFER_LEN_MAX
    rw [b3]; exact hbb
  obtain ⟨q5, e5, s5, t5, b5, l5, a5, d5, c5⟩ :=
    newData_waitForData _ (advance line 9) rfl hbb4
  simp only [b3] at e5 b5 l5 d5 c5
  have e6 := newData_waitForChecksum q5 (advance line (9 + byteAt line 1 * 2)) 2 s5
  rw [if_pos rfl, byteAt_advance, Nat.add_zero] at e6
  have hsum : (q5.checksum + byteAt line (9 + byteAt line 1 * 2)) % 2 ^ 32 % 256
      = (q.checksum + dataByteSum line) % 256 := by
    rw [bytesSum_advance] at c5
    unfold dataByteSum
    norm_num at c5 c3 ⊢
    omega
  rw [hsum] at e6
  have hd : ∀ j, q5.dataBuffer j =
      if j < byteAt line 1 then byteAt line (9 + 2 * j) else q.dataBuffer j := by
    intro j
    rw [d5 j, byteAt_advance, d3]
  by_cases hok : (q.checksum + dataByteSum line) % 256 = 0
  · rw [if_pos hok] at e6
    refine ⟨q1, q2, q3, _, q5, _, 1, e1, e2, e3, e4, e5, e6, s1, s2, s3, rfl, s5, t5, b5, l5,
      ?_, hd, ?_, ?_⟩
    · show q5.addr = _
      rw [a5]; exact a3
    · show (q5.checksum + byteAt line (9 + byteAt line 1 * 2)) % 2 ^ 32 % 256 = _
      exact hsum
    · rw [if_pos hok]; exact ⟨rfl, rfl⟩
  · rw [if_neg hok] at e6
    refine ⟨q1, q2, q3, _, q5, _, 0, e1, e2, e3, e4, e5, e6, s1, s2, s3, rfl, s5, t5, b5, l5,
      ?_, hd, ?_, ?_⟩
    · show q5.addr = _
      rw [a5]; exact a3
    · show (q5.checksum + byteAt line (9 + byteAt line 1 * 2)) % 2 ^ 32 % 256 = _
      exact hsum
    · rw [if_neg hok]; exact ⟨rfl, rfl⟩

/-- The five chunks of an End-of-File line `: BB AAAA 01 CC`, fed to a parser that awaits
a start delimiter: every call, what it returns, and the resulting record. -/
theorem eof_line_steps (q : HexParser) (line : Buffer)
    (hs : q.currentState = State.waitForStart) (h0 : line 0 = 0x3a)
    (h7 : line 7 = 0x30) (h8 : line 8 = 0x31) :
    ∃ q1 q2 q3 q4 q5 r,
      q.newData line 1 = Except.ok (q1, 2) ∧
      q1.newData (advance line 1) 2 = Except.ok (q2, 4) ∧
      q2.newData (advance line 3) 4 = Except.ok (q3, 2) ∧
      q3.newData (advance line 7) 2 = Except.ok (q4, 2) ∧
      q4.newData (advance line 9) 2 = Except.ok (q5, r) ∧
      q1.currentState = State.waitForByteCount ∧
      q2.currentState = State.waitForAddress ∧
      q3.currentState = State.waitForRecordType ∧
      q4.currentState = State.waitForChecksum ∧
      q5.recordType = RecordType.EndOfFile ∧
      q5.expectedByteCount = byteAt line 1 ∧
      q5.dataLen = q.dataLen ∧
      q5.addr = (byteAt line 3 <<< 8) ||| byteAt line 5 ∧
      q5.dataBuffer = q.dataBuffer ∧
      q5.checksum % 256 = (q.checksum + eofByteSum line) % 256 ∧
      (if (q.checksum + eofByteSum line) % 256 = 0
        then q5.currentState = State.waitForStart ∧ r = 1
        else q5.currentState = State.error ∧ r = 0) := by
  obtain ⟨q1, q2, q3, e1, e2, e3, s1, s2, s3, t3, b3, l3, d3, a3, c3⟩ :=
    header_steps q line hs h0
  have e4 := newData_waitForRecordType q3 (advance line 7) 2 s3
  have h7' : advance line 7 0 = 0x30 := h7
  have h8' : advance line 7 1 = 0x31 := h8
  have hne : ¬ (advance line 7 0 = 0x30 ∧ advance line 7 1 = 0x30) := by
    rw [h8']; norm_num
  rw [if_pos rfl, if_neg hne, if_pos ⟨h7', h8'⟩] at e4
  have e5 := newData_waitForChecksum
    { q3 with checksum := (q3.checksum + 0x01) % 2 ^ 32, recordType := RecordType.EndOfFile,
              currentState := State.waitForChecksum }
    (advance line 9) 2 rfl
  rw [if_pos rfl, byteAt_advance, Nat.add_zero] at e5
  have hsum : ((q3.checksum + 0x01) % 2 ^ 32 + byteAt line 9) % 2 ^ 32 % 256
      = (q.checksum + eofByteSum line) % 256 := by
    unfold eofByteSum
    norm_num at c3 ⊢
    omega
  simp only [] at e5
  rw [hsum] at e5
  by_cases hok : (q.checksum + eofByteSum line) % 256 = 0
  · rw [if_pos hok] at e5
    refine ⟨q1, q2, q3, _, _, 1, e1, e2, e3, e4, e5, s1, s2, s3, rfl, rfl, b3, l3, a3, d3,
      hsum, ?_⟩
    rw [if_pos hok]; exact ⟨rfl, rfl⟩
  · rw [if_neg hok] at e5
    refine ⟨q1, q2, q3, _, _, 0, e1, e2, e3, e4, e5, s1, s2, s3, rfl, rfl, b3, l3, a3, d3,
      hsum, ?_⟩
    rw [if_neg hok]; exact ⟨rfl, rfl⟩

/-! ## The drivers, one step at a time -/

theorem recordReady_false_of_state (p : HexParser) (h : p.currentState ≠ State.waitForStart) :
    p.recordReady = false := by
  simp [HexParser.recordReady, h]

theorem getError_eq_zero_of_state (p : HexParser) (h : p.currentState ≠ State.error) :
    p.getError = 0 := by
  simp [HexParser.getError, h]

theorem feedLoop_step (fuel : Nat) (p p' : HexParser) (pos : Buffer) (req next : Nat)
    (hr : p.recordReady = false) (he : p.currentState ≠ State.error)
    (e : p.newData pos req = Except.ok (p', next)) :
    feedLoop (fuel + 1) p pos req = feedLoop fuel p' (advance pos req) next := by
  simp [feedLoop, hr, getError_eq_zero_of_state p he, e]

theorem feedLoop_ready (fuel : Nat) (p : HexParser) (pos : Buffer) (req : Nat)
    (hr : p.recordReady = true) :
    feedLoop (fuel + 1) p pos req = Except.ok (0, p) := by
  simp [feedLoop, hr]

theorem feedLoop_error (fuel : Nat) (p : HexParser) (pos : Buffer) (req : Nat)
    (he : p.currentState = State.error) :
    feedLoop (fuel + 1) p pos req = Except.ok (-1, p) := by
  have hr : p.recordReady = false := recordReady_false_of_state p (by simp [he])
  simp [feedLoop, hr, HexParser.getError, he]

theorem feedChunks_step (n : Nat) (p p' : HexParser) (pos : Buffer) (req next : Nat)
    (e : p.newData pos req = Except.ok (p', next)) :
    feedChunks (n + 1) p pos req = feedChunks n p' (advance pos req) next := by
  simp [feedChunks, e]

theorem run_newData_step (p p' : HexParser) (inBuffer : Buffer) (len r : Nat)
    (cs : List Call) (e : p.newData inBuffer len = Except.ok (p', r)) :
    run p (Call.newData inBuffer len :: cs) = run p' cs := by
  simp [run, Call.apply, e]

/-! ## The drivers on a whole line -/

theorem data_line_feedChunks (q : HexParser) (line : Buffer)
    (hs : q.currentState = State.waitForStart) (h0 : line 0 = 0x3a)
    (h7 : line 7 = 0x30) (h8 : line 8 = 0x30)
    (hbb : byteAt line 1 ≤ DATA_BUFFER_LEN_MAX) :
    ∃ p r, feedChunks 6 q line 1 = Except.ok (p, r) ∧ HoldsDataRecord q line p ∧
      (if (q.checksum + dataByteSum line) % 256 = 0
        then p.currentState = State.waitForStart ∧ r = 1
        else p.currentState = State.error ∧ r = 0) := by
  obtain ⟨q1, q2, q3, q4, q5, q6, r, e1, e2, e3, e4, e5, e6, _, _, _, _, _, t, b, l, a, d, c,
    hfin⟩ := data_line_steps q line hs h0 h7 h8 hbb
  refine ⟨q6, r, ?_, ⟨t, b, l, a, d, c⟩, hfin⟩
  rw [feedChunks_step 5 q q1 line 1 2 e1, feedChunks_step 4 q1 q2 _ 2 4 e2, advance_advance,
    feedChunks_step 3 q2 q3 _ 4 2 e3, advance_advance, feedChunks_step 2 q3 q4 _ 2 _ e4,
    advance_advance, feedChunks_step 1 q4 q5 _ _ 2 e5, advance_advance,
    feedChunks_step 0 q5 q6 _ 2 r e6]
  rfl

theorem data_line_run (q : HexParser) (line : Buffer)
    (hs : q.currentState = State.waitForStart) (h0 : line 0 = 0x3a)
    (h7 : line 7 = 0x30) (h8 : line 8 = 0x30)
    (hbb : byteAt line 1 ≤ DATA_BUFFER_LEN_MAX) :
    ∃ p, run q (dataLineCalls line) = Except.ok p ∧ HoldsDataRecord q line p ∧
      (if (q.checksum + dataByteSum line) % 256 = 0
        then p.currentState = State.waitForStart
        else p.currentState = State.error) := by
  obtain ⟨q1, q2, q3, q4, q5, q6, r, e1, e2, e3, e4, e5, e6, _, _, _, _, _, t, b, l, a, d, c,
    hfin⟩ := data_line_steps q line hs h0 h7 h8 hbb
  refine ⟨q6, ?_, ⟨t, b, l, a, d, c⟩, ?_⟩
  · unfold dataLineCalls
    rw [run_newData_step q q1 _ _ _ _ e1, run_newData_step q1 q2 _ _ _ _ e2,
      run_newData_step q2 q3 _ _ _ _ e3, run_newData_step q3 q4 _ _ _ _ e4,
      run_newData_step q4 q5 _ _ _ _ e5, run_newData_step q5 q6 _ _ _ _ e6]
    rfl
  · by_cases hok : (q.checksum + dataByteSum line) % 256 = 0
    · rw [if_pos hok] at hfin ⊢; exact hfin.1
    · rw [if_neg hok] at hfin ⊢; exact hfin.1

theorem data_line_feedLoop (q : HexParser) (line : Buffer)
    (hs : q.currentState = State.waitForStart) (hrt : q.recordType = RecordType.Invalid)
    (h0 : line 0 = 0x3a) (h7 : line 7 = 0x30) (h8 : line 8 = 0x30)
    (hbb : byteAt line 1 ≤ DATA_BUFFER_LEN_MAX) (fuel : Nat) (hfuel : 7 ≤ fuel) :
    ∃ p, HoldsDataRecord q line p ∧
      (if (q.checksum + dataByteSum line) % 256 = 0
        then p.currentState = State.waitForStart ∧ feedLoop fuel q line 1 = Except.ok (0, p)
        else p.currentState = State.error ∧ feedLoop fuel q line 1 = Except.ok (-1, p)) := by
  obtain ⟨q1, q2, q3, q4, q5, q6, r, e1, e2, e3, e4, e5, e6, s1, s2, s3, s4, s5, t, b, l, a,
    d, c, hfin⟩ := data_line_steps q line hs h0 h7 h8 hbb
  obtain ⟨f, rfl⟩ : ∃ f, fuel = f + 7 := ⟨fuel - 7, by omega⟩
  have hq : q.recordReady = false := by simp [HexParser.recordReady, hrt]
  have hloop : feedLoop (f + 7) q line 1
      = feedLoop (f + 1) q6 (advance line (9 + byteAt line 1 * 2 + 2)) r := by
    rw [feedLoop_step (f + 6) q q1 line 1 2 hq (by simp [hs]) e1,
      feedLoop_step (f + 5) q1 q2 _ 2 4 (recordReady_false_of_state q1 (by simp [s1]))
        (by simp [s1]) e2, advance_advance,
      feedLoop_step (f + 4) q2 q3 _ 4 2 (recordReady_false_of_state q2 (by simp [s2]))
        (by simp [s2]) e3, advance_advance,
      feedLoop_step (f + 3) q3 q4 _ 2 _ (recordReady_false_of_state q3 (by simp [s3]))
        (by simp [s3]) e4, advance_advance,
      feedLoop_step (f + 2) q4 q5 _ _ 2 (recordReady_false_of_state q4 (by simp [s4]))
        (by simp [s4]) e5, advance_advance,
      feedLoop_step (f + 1) q5 q6 _ 2 r (recordReady_false_of_state q5 (by simp [s5]))
        (by simp [s5]) e6, advance_advance]
  refine ⟨q6, ⟨t, b, l, a, d, c⟩, ?_⟩
  by_cases hok : (q.checksum + dataByteSum line) % 256 = 0
  · rw [if_pos hok] at hfin ⊢
    refine ⟨hfin.1, ?_⟩
    rw [hloop]
    exact feedLoop_ready f q6 _ r (by simp [HexParser.recordReady, hfin.1, t])
  · rw [if_neg hok] at hfin ⊢
    refine ⟨hfin.1, ?_⟩
    rw [hloop]
    exact feedLoop_error f q6 _ r hfin.1

theorem eof_line_feedChunks (q : HexParser) (line : Buffer)
    (hs : q.currentState = State.waitForStart) (h0 : line 0 = 0x3a)
    (h7 : line 7 = 0x30) (h8 : line 8 = 0x31) :
    ∃ p r, feedChunks 5 q line 1 = Except.ok (p, r) ∧ HoldsEofRecord q line p ∧
      (if (q.checksum + eofByteSum line) % 256 = 0
        then p.currentState = State.waitForStart ∧ r = 1
        else p.currentState = State.error ∧ r = 0) := by
  obtain ⟨q1, q2, q3, q4, q5, r, e1, e2, e3, e4, e5, _, _, _, _, t, b, l, a, d, c, hfin⟩ :=
    eof_line_steps q line hs h0 h7 h8
  refine ⟨q5, r, ?_, ⟨t, b, l, a, d, c⟩, hfin⟩
  rw [feedChunks_step 4 q q1 line 1 2 e1, feedChunks_step 3 q1 q2 _ 2 4 e2, advance_advance,
    feedChunks_step 2 q2 q3 _ 4 2 e3, advance_advance, feedChunks_step 1 q3 q4 _ 2 _ e4,
    advance_advance, feedChunks_step 0 q4 q5 _ 2 r e5]
  rfl

theorem eof_line_run (q : HexParser) (line : Buffer)
    (hs : q.currentState = State.waitForStart) (h0 : line 0 = 0x3a)
    (h7 : line 7 = 0x30) (h8 : line 8 = 0x31) :
    ∃ p, run q (eofLineCalls line) = Except.ok p ∧ HoldsEofRecord q line p ∧
      (if (q.checksum + eofByteSum line) % 256 = 0
        then p.currentState = State.waitForStart
        else p.currentState = State.error) := by
  obtain ⟨q1, q2, q3, q4, q5, r, e1, e2, e3, e4, e5, _, _, _, _, t, b, l, a, d, c, hfin⟩ :=
    eof_line_steps q line hs h0 h7 h8
  refine ⟨q5, ?_, ⟨t, b, l, a, d, c⟩, ?_⟩
  · unfold eofLineCalls
    rw [run_newData_step q q1 _ _ _ _ e1, run_newData_step q1 q2 _ _ _ _ e2,
      run_newData_step q2 q3 _ _ _ _ e3, run_newData_step q3 q4 _ _ _ _ e4,
      run_newData_step q4 q5 _ _ _ _ e5]
    rfl
  · by_cases hok : (q.checksum + eofByteSum line) % 256 = 0
    · rw [if_pos hok] at hfin ⊢; exact hfin.1
    · rw [if_neg hok] at hfin ⊢; exact hfin.1

/-! ## Well-formed lines -/

theorem shift_or_byte (a b : Nat) (hb : b < 256) : (a <<< 8) ||| b = 256 * a + b := by
  have h := Nat.mul_add_lt_is_or (show b < 2 ^ 8 by omega) a
  rw [Nat.shiftLeft_eq, Nat.mul_comm a (2 ^ 8), ← h]

theorem wellFormedDataLine_bytes (line : Buffer) (h : WellFormedDataLine line) :
    byteAt line 1 = pairValue line 1 ∧
    byteAt line 3 = pairValue line 3 ∧
    byteAt line 5 = pairValue line 5 ∧
    (∀ j < pairValue line 1, byteAt line (9 + 2 * j) = pairValue line (9 + 2 * j)) ∧
    byteAt line 1 ≤ DATA_BUFFER_LEN_MAX ∧
    dataByteSum line % 256 = 0 := by
  obtain ⟨_, hd, _, _, hbb, hsum⟩ := h
  have e1 : byteAt line 1 = pairValue line 1 :=
    byteAt_eq_pairValue line 1 (hd 1 (by omega) (by omega)) (hd 2 (by omega) (by omega))
  have e3 : byteAt line 3 = pairValue line 3 :=
    byteAt_eq_pairValue line 3 (hd 3 (by omega) (by omega)) (hd 4 (by omega) (by omega))
  have e5 : byteAt line 5 = pairValue line 5 :=
    byteAt_eq_pairValue line 5 (hd 5 (by omega) (by omega)) (hd 6 (by omega) (by omega))
  have ed : ∀ j < pairValue line 1, byteAt line (9 + 2 * j) = pairValue line (9 + 2 * j) :=
    fun j hj => byteAt_eq_pairValue line (9 + 2 * j) (hd _ (by omega) (by omega))
      (hd _ (by omega) (by omega))
  have ec : byteAt line (9 + 2 * pairValue line 1) = pairValue line (9 + 2 * pairValue line 1) :=
    byteAt_eq_pairValue line _ (hd _ (by omega) (by omega)) (hd _ (by omega) (by omega))
  have es : bytesSum line 9 (pairValue line 1) = pairsSum line 9 (pairValue line 1) :=
    bytesSum_eq_pairsSum line 9 _ (fun j hj => hd _ (by omega) (by omega))
  refine ⟨e1, e3, e5, ed, ?_, ?_⟩
  · rw [e1]; exact hbb
  · unfold dataByteSum
    rw [e1, e3, e5, es, Nat.mul_comm (pairValue line 1) 2, ec]
    exact hsum

theorem wellFormedEofLine_bytes (line : Buffer) (h : WellFormedEofLine line) :
    byteAt line 1 = pairValue line 1 ∧
    byteAt line 3 = pairValue line 3 ∧
    byteAt line 5 = pairValue line 5 ∧
    eofByteSum line % 256 = 0 := by
  obtain ⟨_, hd, _, _, hsum⟩ := h
  have e1 : byteAt line 1 = pairValue line 1 :=
    byteAt_eq_pairValue line 1 (hd 1 (by omega) (by omega)) (hd 2 (by omega) (by omega))
  have e3 : byteAt line 3 = pairValue line 3 :=
    byteAt_eq_pairValue line 3 (hd 3 (by omega) (by omega)) (hd 4 (by omega) (by omega))
  have e5 : byteAt line 5 = pairValue line 5 :=
    byteAt_eq_pairValue line 5 (hd 5 (by omega) (by omega)) (hd 6 (by omega) (by omega))
  have e9 : byteAt line 9 = pairValue line 9 :=
    byteAt_eq_pairValue line 9 (hd 9 (by omega) (by omega)) (hd 10 (by omega) (by omega))
  refine ⟨e1, e3, e5, ?_⟩
  unfold eofByteSum
  rw [e1, e3, e5, e9]
  exact hsum

/-! ## End to end -/

/-- C1: a well-formed Data line (hexadecimal digits in either case, byte count at most 50,
that many payload pairs, correct checksum), fed to a new parser by the feeding loop (first
chunk of length 1, every later chunk of the length `newData` last returned), ends with
`getError() = 0`, `recordReady()` true and `getRecordType() = Data`; `getData` then yields
the big-endian value of `AAAA` as address, the byte count as length, and the value of the
i-th payload pair as `data[i]` for every i below the byte count. -/
theorem data_line_decoded (uninit : Nat → Nat) (line : Buffer) (hwf : WellFormedDataLine line)
    (fuel : Nat) (hfuel : 7 ≤ fuel) (dataRecord : DataRecord) :
    ∃ p out, feedIntoParser fuel (HexParser.new uninit) line = Except.ok (0, p) ∧
      p.getError = 0 ∧ p.recordReady = true ∧ p.getRecordType = RecordType.Data ∧
      p.getData dataRecord = Except.ok out ∧
      out.addr = 256 * pairValue line 3 + pairValue line 5 ∧
      out.len = pairValue line 1 ∧
      ∀ i < pairValue line 1, out.data i = pairValue line (9 + 2 * i) := by
  obtain ⟨e1, e3, e5, ed, hbb, hsum⟩ := wellFormedDataLine_bytes line hwf
  obtain ⟨h0, _, h7, h8, _, _⟩ := hwf
  obtain ⟨p, ⟨t, b, l, a, d, c⟩, hfin⟩ :=
    data_line_feedLoop (HexParser.new uninit) line rfl rfl h0 h7 h8 hbb fuel hfuel
  have hok : ((HexParser.new uninit).checksum + dataByteSum line) % 256 = 0 := by
    show (0 + dataByteSum line) % 256 = 0
    rw [Nat.zero_add]; exact hsum
  rw [if_pos hok] at hfin
  obtain ⟨hst, hfeed⟩ := hfin
  have hlen : p.dataLen ≤ DATA_BUFFER_LEN_MAX ∧ p.dataLen ≤ RECORD_LEN_MAX := by
    rw [l]; exact ⟨hbb, hbb⟩
  refine ⟨p, { dataRecord with
      data := fun j => if j < p.dataLen then p.dataBuffer j else dataRecord.data j
      addr := p.addr
      len := p.dataLen }, hfeed, ?_, ?_, t, ?_, ?_, ?_, ?_⟩
  · simp [HexParser.getError, hst]
  · simp [HexParser.recordReady, hst, t]
  · simp [HexParser.getData, hlen, t]
  · show p.addr = _
    rw [a, shift_or_byte _ _ (byteAt_lt line 5), e3, e5]
  · show p.dataLen = _
    rw [l, e1]
  · intro i hi
    show (if i < p.dataLen then p.dataBuffer i else dataRecord.data i) = _
    rw [l, e1, if_pos hi, d i, e1, if_pos hi, ed i hi]

/-- The integration line of the test suite: address 0x0100, length 0x10, first payload byte
0x21, last payload byte 0x01. -/
theorem data_line_decoded_witness :
    WellFormedDataLine (cstr ":10010000214601360121470136007EFE09D2190140") ∧
    ∃ p out,
      feedIntoParser 7 (HexParser.new fun _ => 0)
        (cstr ":10010000214601360121470136007EFE09D2190140") = Except.ok (0, p) ∧
      p.getError = 0 ∧ p.recordReady = true ∧ p.getRecordType = RecordType.Data ∧
      p.getData DataRecord.new = Except.ok out ∧
      out.addr = 0x0100 ∧ out.len = 0x10 ∧ out.data 0 = 0x21 ∧ out.data 15 = 0x01 := by
  refine ⟨by decide, ?_⟩
  obtain ⟨p, out, h1, h2, h3, h4, h5, h6, h7, h8⟩ :=
    data_line_decoded (fun _ => 0) (cstr ":10010000214601360121470136007EFE09D2190140")
      (by decide) 7 (le_refl 7) DataRecord.new
  refine ⟨p, out, h1, h2, h3, h4, h5, ?_, ?_, ?_, ?_⟩
  · rw [h6]; decide
  · rw [h7]; decide
  · rw [h8 0 (by decide)]; decide
  · rw [h8 15 (by decide)]; decide

/-! ## Consecutive records -/

theorem idle_new (uninit : Nat → Nat) : Idle (HexParser.new uninit) :=
  ⟨rfl, rfl⟩

theorem feedLine_wellFormed (q : HexParser) (line : Line) (hq : Idle q)
    (hwf : line.WellFormed) :
    ∃ p, feedLine q line = Except.ok (p, 1) ∧ Idle p ∧ p.getError = 0 ∧
      p.recordReady = true := by
  obtain ⟨hs, hc⟩ := hq
  cases line with
  | data chars =>
    obtain ⟨_, _, _, _, hbb, hsum⟩ := wellFormedDataLine_bytes chars hwf
    obtain ⟨h0, _, h7, h8, _, _⟩ := hwf
    obtain ⟨p, r, e, ⟨t, _, _, _, _, c⟩, hfin⟩ := data_line_feedChunks q chars hs h0 h7 h8 hbb
    have hok : (q.checksum + dataByteSum chars) % 256 = 0 := by omega
    rw [if_pos hok] at hfin
    obtain ⟨hst, hr⟩ := hfin
    subst hr
    refine ⟨p, e, ⟨hst, ?_⟩, ?_, ?_⟩
    · rw [c]; exact hok
    · simp [HexParser.getError, hst]
    · simp [HexParser.recordReady, hst, t]
  | eof chars =>
    obtain ⟨_, _, _, hsum⟩ := wellFormedEofLine_bytes chars hwf
    obtain ⟨h0, _, h7, h8, _⟩ := hwf
    obtain ⟨p, r, e, ⟨t, _, _, _, _, c⟩, hfin⟩ := eof_line_feedChunks q chars hs h0 h7 h8
    have hok : (q.checksum + eofByteSum chars) % 256 = 0 := by omega
    rw [if_pos hok] at hfin
    obtain ⟨hst, hr⟩ := hfin
    subst hr
    refine ⟨p, e, ⟨hst, ?_⟩, ?_, ?_⟩
    · rw [c]; exact hok
    · simp [HexParser.getError, hst]
    · simp [HexParser.recordReady, hst, t]

theorem feedLines_wellFormed : ∀ (lines : List Line) (q : HexParser), Idle q →
    (∀ l ∈ lines, l.WellFormed) → ∃ p, feedLines q lines = Except.ok p ∧ Idle p
  | [], q, hq, _ => ⟨q, rfl, hq⟩
  | l :: ls, q, hq, hwf => by
    obtain ⟨p, e, hp, _, _⟩ := feedLine_wellFormed q l hq (hwf l (List.mem_cons_self l ls))
    obtain ⟨p', e', hp'⟩ := feedLines_wellFormed ls p hp
      (fun l' hl' => hwf l' (List.mem_cons_of_mem l hl'))
    exact ⟨p', by simp [feedLines, e, e'], hp'⟩

theorem feedLines_concat : ∀ (lines : List Line) (l : Line) (q q' p : HexParser) (r : Nat),
    feedLines q lines = Except.ok q' → feedLine q' l = Except.ok (p, r) →
    feedLines q (lines ++ [l]) = Except.ok p
  | [], l, q, q', p, r, h1, h2 => by
    simp only [feedLines] at h1
    cases h1
    simp [feedLines, h2]
  | l0 :: ls, l, q, q', p, r, h1, h2 => by
    simp only [feedLines] at h1
    split at h1
    · cases h1
    · rename_i q0 r0 e0
      simp only [List.cons_append, feedLines, e0]
      exact feedLines_concat ls l q0 q' p r h1 h2

/-- C4: when well-formed, correctly checksummed records (Data with byte count at most 50,
or End-of-File) are fed to a new parser one after the other by the caller protocol, with no
`reset()` in between, every record is accepted: whatever well-formed records `done` came
before, the checksum chunk of the next record `line` returns 1 and leaves `getError() = 0`
and `recordReady()` true, although the accumulator is carried over modulo 2^32. -/
theorem consecutive_records_accepted (uninit : Nat → Nat) (done : List Line) (line : Line)
    (hdone : ∀ l ∈ done, l.WellFormed) (hline : line.WellFormed) :
    ∃ q p, feedLines (HexParser.new uninit) done = Except.ok q ∧
      feedLine q line = Except.ok (p, 1) ∧
      p.getError = 0 ∧ p.recordReady = true ∧
      feedLines (HexParser.new uninit) (done ++ [line]) = Except.ok p := by
  obtain ⟨q, e, hq⟩ := feedLines_wellFormed done _ (idle_new uninit) hdone
  obtain ⟨p, e', _, h1, h2⟩ := feedLine_wellFormed q line hq hline
  exact ⟨q, p, e, e', h1, h2, feedLines_concat done line _ q p 1 e e'⟩

/-- A Data line, an End-of-File line and the Data line again, fed without `reset()`. -/
theorem consecutive_records_accepted_witness :
    (∀ l ∈ [Line.data exampleDataLine, Line.eof exampleEofLine], l.WellFormed) ∧
    (Line.data exampleDataLine).WellFormed ∧
    ∃ q p, feedLines (HexParser.new fun _ => 0)
        [Line.data exampleDataLine, Line.eof exampleEofLine] = Except.ok q ∧
      feedLine q (Line.data exampleDataLine) = Except.ok (p, 1) ∧
      p.getError = 0 ∧ p.recordReady = true ∧
      feedLines (HexParser.new fun _ => 0)
        ([Line.data exampleDataLine, Line.eof exampleEofLine] ++ [Line.data exampleDataLine])
        = Except.ok p := by
  have hd : (Line.data exampleDataLine).WellFormed := by
    show WellFormedDataLine exampleDataLine
    decide
  have he : (Line.eof exampleEofLine).WellFormed := by
    show WellFormedEofLine exampleEofLine
    decide
  have hall : ∀ l ∈ [Line.data exampleDataLine, Line.eof exampleEofLine], l.WellFormed := by
    intro l hl
    simp only [List.mem_cons, List.mem_singleton, List.not_mem_nil, or_false] at hl
    rcases hl with rfl | rfl
    · exact hd
    · exact he
  exact ⟨hall, hd, consecutive_records_accepted (fun _ => 0) _ _ hall hd⟩

/-! ## The checksum rule -/

theorem checksum_byte_unique (s c : Nat) (hc : c < 256) :
    (s + c) % 256 = 0 ↔ c = (256 - s % 256) % 256 := by
  omega

/-- The checksum rule for the records that fit the data buffer.  A Data line with a decoded
byte count of at most 50, or an End-of-File line, fed chunk by chunk with the lengths of the
wire format to a new parser, whatever characters its fields hold: the parser ends in the
start-awaiting phase with `recordReady()` true, a record type other than `Invalid` and
`getError() = 0` exactly when the decoded bytes, checksum byte included, sum to 0 modulo
256; otherwise `getError()` is non-zero and `recordReady()` false.  The accepted checksum
byte is the two's complement of the low byte of the sum of the bytes before it. -/
theorem checksum_rule_within_buffer (uninit : Nat → Nat) (line : Buffer)
    (h0 : line 0 = 0x3a) (h7 : line 7 = 0x30) :
    (line 8 = 0x30 → byteAt line 1 ≤ DATA_BUFFER_LEN_MAX →
      ∃ p, run (HexParser.new uninit) (dataLineCalls line) = Except.ok p ∧
        ((p.currentState = State.waitForStart ∧ p.recordReady = true ∧
            p.getRecordType ≠ RecordType.Invalid ∧ p.getError = 0)
          ↔ dataByteSum line % 256 = 0) ∧
        (dataByteSum line % 256 ≠ 0 → p.getError ≠ 0 ∧ p.recordReady = false) ∧
        (dataByteSum line % 256 = 0 ↔
          byteAt line (9 + byteAt line 1 * 2) =
            (256 - (byteAt line 1 + byteAt line 3 + byteAt line 5 + 0x00
              + bytesSum line 9 (byteAt line 1)) % 256) % 256)) ∧
    (line 8 = 0x31 →
      ∃ p, run (HexParser.new uninit) (eofLineCalls line) = Except.ok p ∧
        ((p.currentState = State.waitForStart ∧ p.recordReady = true ∧
            p.getRecordType ≠ RecordType.Invalid ∧ p.getError = 0)
          ↔ eofByteSum line % 256 = 0) ∧
        (eofByteSum line % 256 ≠ 0 → p.getError ≠ 0 ∧ p.recordReady = false) ∧
        (eofByteSum line % 256 = 0 ↔
          byteAt line 9 =
            (256 - (byteAt line 1 + byteAt line 3 + byteAt line 5 + 0x01) % 256) % 256)) := by
  constructor
  · intro h8 hbb
    obtain ⟨p, e, ⟨t, _, _, _, _, _⟩, hfin⟩ :=
      data_line_run (HexParser.new uninit) line rfl h0 h7 h8 hbb
    have hz : ((HexParser.new uninit).checksum + dataByteSum line) % 256
        = dataByteSum line % 256 := by
      show (0 + dataByteSum line) % 256 = _
      rw [Nat.zero_add]
    rw [hz] at hfin
    refine ⟨p, e, ?_, ?_, ?_⟩
    · by_cases hok : dataByteSum line % 256 = 0
      · rw [if_pos hok] at hfin
        simp [HexParser.recordReady, HexParser.getRecordType, HexParser.getError, hfin, t, hok]
      · rw [if_neg hok] at hfin
        simp [hfin, hok]
    · intro hok
      rw [if_neg hok] at hfin
      simp [HexParser.recordReady, HexParser.getError, hfin]
    · exact checksum_byte_unique _ _ (byteAt_lt line _)
  · intro h8
    obtain ⟨p, e, ⟨t, _, _, _, _, _⟩, hfin⟩ :=
      eof_line_run (HexParser.new uninit) line rfl h0 h7 h8
    have hz : ((HexParser.new uninit).checksum + eofByteSum line) % 256
        = eofByteSum line % 256 := by
      show (0 + eofByteSum line) % 256 = _
      rw [Nat.zero_add]
    rw [hz] at hfin
    refine ⟨p, e, ?_, ?_, ?_⟩
    · by_cases hok : eofByteSum line % 256 = 0
      · rw [if_pos hok] at hfin
        simp [HexParser.recordReady, HexParser.getRecordType, HexParser.getError, hfin, t, hok]
      · rw [if_neg hok] at hfin
        simp [hfin, hok]
    · intro hok
      rw [if_neg hok] at hfin
      simp [HexParser.recordReady, HexParser.getError, hfin]
    · exact checksum_byte_unique _ _ (byteAt_lt line _)

/-- The integration line of the test suite sums to 0 modulo 256 and is accepted. -/
theorem checksum_rule_within_buffer_witness :
    exampleDataLine 0 = 0x3a ∧ exampleDataLine 7 = 0x30 ∧ exampleDataLine 8 = 0x30 ∧
    byteAt exampleDataLine 1 ≤ DATA_BUFFER_LEN_MAX ∧ dataByteSum exampleDataLine % 256 = 0 ∧
    ∃ p, run (HexParser.new fun _ => 0) (dataLineCalls exampleDataLine) = Except.ok p ∧
      p.currentState = State.waitForStart ∧ p.recordReady = true ∧
      p.getRecordType ≠ RecordType.Invalid ∧ p.getError = 0 := by
  have hsum : dataByteSum exampleDataLine % 256 = 0 := by decide
  obtain ⟨p, e, h, _, _⟩ :=
    (checksum_rule_within_buffer (fun _ => 0) exampleDataLine (by decide) (by decide)).1
      (by decide) (by decide)
  exact ⟨by decide, by decide, by decide, by decide, hsum, p, e, h.2 hsum⟩

/-- After `reset()`, a well-formed Data line fed by the feeding loop is accepted exactly
when the low 8 bits of the accumulator the parser had before the reset are zero: `reset()`
leaves `checksum` as it is. -/
theorem reset_then_data_line (q : HexParser) (line : Buffer) (hwf : WellFormedDataLine line)
    (fuel : Nat) (hfuel : 7 ≤ fuel) :
    ∃ p, if q.checksum % 256 = 0
      then feedIntoParser fuel q.reset line = Except.ok (0, p) ∧ p.getError = 0 ∧
        p.recordReady = true
      else feedIntoParser fuel q.reset line = Except.ok (-1, p) ∧ p.getError ≠ 0 ∧
        p.recordReady = false := by
  obtain ⟨_, _, _, _, hbb, hsum⟩ := wellFormedDataLine_bytes line hwf
  obtain ⟨h0, _, h7, h8, _, _⟩ := hwf
  obtain ⟨p, ⟨t, _⟩, hfin⟩ := data_line_feedLoop q.reset line rfl rfl h0 h7 h8 hbb fuel hfuel
  have hz : (q.reset.checksum + dataByteSum line) % 256 = q.checksum % 256 := by
    show (q.checksum + dataByteSum line) % 256 = _
    omega
  rw [hz] at hfin
  refine ⟨p, ?_⟩
  by_cases hok : q.checksum % 256 = 0
  · rw [if_pos hok] at hfin ⊢
    exact ⟨hfin.2, by simp [HexParser.getError, hfin.1],
      by simp [HexParser.recordReady, hfin.1, t]⟩
  · rw [if_neg hok] at hfin ⊢
    exact ⟨hfin.2, by simp [HexParser.getError, hfin.1],
      by simp [HexParser.recordReady, hfin.1]⟩

/-- C3 at a failing input: an End-of-File line with a wrong checksum is rejected and the
parser is reset; `getError()` is 0 again, but the accumulator still holds 0xff.  The
well-formed line `:00000001FF` fed next by the feeding loop is rejected (`getError()` is
-1, `recordReady()` false), while the same line is accepted by a new parser. -/
theorem reset_keeps_checksum :
    WellFormedEofLine exampleEofLine ∧
    (∃ p, feedIntoParser 7 (HexParser.new fun _ => 0) exampleEofLine = Except.ok (0, p) ∧
      p.getError = 0 ∧ p.recordReady = true) ∧
    ∃ q p, run (HexParser.new fun _ => 0) exampleRejectedThenReset = Except.ok q ∧
      q.currentState = State.waitForStart ∧ q.getRecordType = RecordType.Invalid ∧
      q.getError = 0 ∧ q.checksum = 0xff ∧
      feedIntoParser 7 q exampleEofLine = Except.ok (-1, p) ∧
      p.getError = -1 ∧ p.recordReady = false :=
  ⟨by decide, ⟨_, rfl, rfl, rfl⟩, _, _, rfl, rfl, rfl, rfl, rfl, rfl, rfl, rfl⟩

/-! ## The payload buffer -/

/-- C10 at a failing input: the Data line with byte count 0x33 = 51 is fed to a new parser
by the caller protocol.  The first four chunks are accepted and 102 characters are
requested; handing over these 102 characters makes the data loop store a byte at
`dataBuffer[50]`, past the end of the 50-byte buffer, so the payload length the parser
would hold is 51. -/
theorem payload_overflows_buffer :
    DATA_BUFFER_LEN_MAX = 50 ∧
    (∃ p, feedChunks 4 (HexParser.new fun _ => 0) exampleOversizedLine 1 = Except.ok (p, 102) ∧
      p.currentState = State.waitForData ∧ p.getError = 0 ∧ p.expectedByteCount = 51) ∧
    feedChunks 5 (HexParser.new fun _ => 0) exampleOversizedLine 1
      = Except.error (Fault.outOfBounds 50) ∧
    feedIntoParser 7 (HexParser.new fun _ => 0) exampleOversizedLine
      = Except.error (Fault.outOfBounds 50) :=
  ⟨rfl, ⟨_, rfl, rfl, rfl, rfl⟩, rfl, rfl⟩

theorem dataLen_le_newData (p p' : HexParser) (inBuffer : Buffer) (len r : Nat)
    (hp : p.dataLen ≤ DATA_BUFFER_LEN_MAX) (h : p.newData inBuffer len = Except.ok (p', r)) :
    p'.dataLen ≤ DATA_BUFFER_LEN_MAX := by
  cases hs : p.currentState with
  | waitForStart =>
    rw [newData_waitForStart p inBuffer len hs] at h
    split at h <;> cases h <;> exact hp
  | waitForByteCount =>
    rw [newData_waitForByteCount p inBuffer len hs] at h
    split at h <;> cases h <;> exact hp
  | waitForAddress =>
    rw [newData_waitForAddress p inBuffer len hs] at h
    split at h <;> cases h <;> exact hp
  | waitForRecordType =>
    rw [newData_waitForRecordType p inBuffer len hs] at h
    split at h
    · split at h
      · cases h; exact hp
      · split at h <;> cases h <;> exact hp
    · cases h; exact hp
  | waitForData =>
    by_cases hlen : len = p.expectedByteCount * 2
    · subst hlen
      by_cases hn : p.expectedByteCount ≤ DATA_BUFFER_LEN_MAX
      · obtain ⟨q, e, _, _, _, l, _⟩ := newData_waitForData p inBuffer hs hn
        rw [e] at h
        cases h
        rw [l]; exact hn
      · rw [newData_waitForData_overflow p inBuffer hs (by omega)] at h
        cases h
    · rw [newData_waitForData_wrongLen p inBuffer len hs hlen] at h
      cases h
      exact hp
  | waitForChecksum =>
    rw [newData_waitForChecksum p inBuffer len hs] at h
    split at h
    · split at h <;> cases h <;> exact hp
    · cases h; exact hp
  | error =>
    rw [newData_error p inBuffer len hs] at h
    cases h
    exact hp

/-- As long as no call stores outside `dataBuffer`, the payload length stays within the
buffer and `getData` copies within both arrays. -/
theorem dataLen_le_of_run : ∀ (cs : List Call) (p p' : HexParser),
    p.dataLen ≤ DATA_BUFFER_LEN_MAX → run p cs = Except.ok p' →
    p'.dataLen ≤ DATA_BUFFER_LEN_MAX ∧
      ∀ dataRecord, ∃ out, p'.getData dataRecord = Except.ok out
  | [], p, p', hp, h => by
    simp only [run] at h
    cases h
    refine ⟨hp, fun dataRecord => ?_⟩
    have hlen : p.dataLen ≤ DATA_BUFFER_LEN_MAX ∧ p.dataLen ≤ RECORD_LEN_MAX := ⟨hp, hp⟩
    unfold HexParser.getData
    rw [if_pos hlen]
    by_cases ht : p.recordType = RecordType.Data
    · exact ⟨_, by rw [if_pos ht]⟩
    · exact ⟨_, by rw [if_neg ht]⟩
  | c :: cs, p, p', hp, h => by
    simp only [run] at h
    split at h
    · cases h
    · rename_i q e
      refine dataLen_le_of_run cs q p' ?_ h
      cases c with
      | newData inBuffer len =>
        simp only [Call.apply] at e
        split at e
        · cases e
        · rename_i q1 r e1
          cases e
          exact dataLen_le_newData p _ inBuffer len r hp e1
      | reset =>
        simp only [Call.apply] at e
        cases e
        exact hp

/-- A Data line without payload, `:0000000000`: the record-type chunk requests 0
characters, the feeding loop hands over an empty chunk, and the record is accepted with
length 0. -/
theorem empty_payload_line :
    (∃ p, feedChunks 4 (HexParser.new fun _ => 0) (cstr ":0000000000") 1 = Except.ok (p, 0) ∧
      p.currentState = State.waitForData) ∧
    ∃ p out, feedIntoParser 7 (HexParser.new fun _ => 0) (cstr ":0000000000")
        = Except.ok (0, p) ∧
      p.recordReady = true ∧ p.getRecordType = RecordType.Data ∧
      p.getData DataRecord.new = Except.ok out ∧ out.len = 0 :=
  ⟨⟨_, rfl, rfl⟩, _, _, rfl, rfl, rfl, rfl, rfl⟩

/-! ## Single calls: start delimiter, record type, reset -/

/-- C13: in the start-awaiting phase a call of length 1 with the character `:` returns 2
and leaves `getError() = 0`; with any other character the parser enters the Error phase.
So a call of length 1 is accepted exactly when the character is `:`. -/
theorem start_char_accepted_iff (p : HexParser) (inBuffer : Buffer)
    (hs : p.currentState = State.waitForStart) :
    (inBuffer 0 = 0x3a →
      ∃ p', p.newData inBuffer 1 = Except.ok (p', 2) ∧ p'.getError = 0) ∧
    (inBuffer 0 ≠ 0x3a →
      ∃ p' r, p.newData inBuffer 1 = Except.ok (p', r) ∧ p'.getError ≠ 0) ∧
    (∀ p' r, p.newData inBuffer 1 = Except.ok (p', r) →
      (p'.getError = 0 ↔ inBuffer 0 = 0x3a)) := by
  have e := newData_waitForStart p inBuffer 1 hs
  by_cases h0 : inBuffer 0 = 0x3a
  · rw [if_pos ⟨rfl, h0⟩] at e
    refine ⟨fun _ => ⟨_, e, rfl⟩, fun h => absurd h0 h, ?_⟩
    intro p' r e'
    rw [e] at e'
    cases e'
    simp [HexParser.getError, h0]
  · have hn : ¬ (1 = 1 ∧ inBuffer 0 = 0x3a) := fun c => h0 c.2
    rw [if_neg hn] at e
    refine ⟨fun h => absurd h h0, fun _ => ⟨_, _, e, by simp [HexParser.getError]⟩, ?_⟩
    intro p' r e'
    rw [e] at e'
    cases e'
    simp [HexParser.getError, h0]

/-- A new parser accepts `:` and requests 2 characters. -/
theorem start_char_accepted_iff_witness :
    (HexParser.new fun _ => 0).currentState = State.waitForStart ∧
    cstr ":" 0 = 0x3a ∧
    ∃ p', (HexParser.new fun _ => 0).newData (cstr ":") 1 = Except.ok (p', 2) ∧
      p'.getError = 0 :=
  ⟨rfl, by decide,
    (start_char_accepted_iff (HexParser.new fun _ => 0) (cstr ":") rfl).1 (by decide)⟩

/-- C14: in the record-type-awaiting phase, after a call of length 2 with the characters
`c1 c2`, the parser is out of the Error phase exactly when the pair is `00` or `01`; every
other pair, `03` included, leaves `getError()` non-zero. -/
theorem record_type_accepted_iff (p : HexParser) (inBuffer : Buffer)
    (hs : p.currentState = State.waitForRecordType) :
    ∃ p' r, p.newData inBuffer 2 = Except.ok (p', r) ∧
      (p'.getError = 0 ↔
        (inBuffer 0 = 0x30 ∧ inBuffer 1 = 0x30) ∨ (inBuffer 0 = 0x30 ∧ inBuffer 1 = 0x31)) ∧
      (¬ ((inBuffer 0 = 0x30 ∧ inBuffer 1 = 0x30) ∨ (inBuffer 0 = 0x30 ∧ inBuffer 1 = 0x31)) →
        p'.getError ≠ 0) := by
  have e := newData_waitForRecordType p inBuffer 2 hs
  rw [if_pos rfl] at e
  by_cases h00 : inBuffer 0 = 0x30 ∧ inBuffer 1 = 0x30
  · rw [if_pos h00] at e
    exact ⟨_, _, e, by simp [HexParser.getError, h00], fun h => absurd (Or.inl h00) h⟩
  · rw [if_neg h00] at e
    by_cases h01 : inBuffer 0 = 0x30 ∧ inBuffer 1 = 0x31
    · rw [if_pos h01] at e
      exact ⟨_, _, e, by simp [HexParser.getError, h01], fun h => absurd (Or.inr h01) h⟩
    · rw [if_neg h01] at e
      refine ⟨_, _, e, ?_, fun _ => by simp [HexParser.getError]⟩
      have hno : ¬ ((inBuffer 0 = 0x30 ∧ inBuffer 1 = 0x30) ∨
          (inBuffer 0 = 0x30 ∧ inBuffer 1 = 0x31)) := fun c => c.elim h00 h01
      simp [HexParser.getError, hno]

/-- The record type `03` is rejected. -/
theorem record_type_accepted_iff_witness :
    exampleAwaitingRecordType.currentState = State.waitForRecordType ∧
    ∃ p' r, exampleAwaitingRecordType.newData (cstr "03") 2 = Except.ok (p', r) ∧
      p'.getError ≠ 0 := by
  obtain ⟨p', r, e, _, h⟩ := record_type_accepted_iff exampleAwaitingRecordType (cstr "03") rfl
  exact ⟨rfl, p', r, e, h (by decide)⟩

/-- C15: from every parser state, after `reset()`: `getError()` is 0, `getRecordType()` is
`Invalid`, `recordReady()` is false and the parser awaits a start delimiter; a following
`newData(":", 1)` returns 2 without error. -/
theorem reset_restores_start (p : HexParser) :
    p.reset.getError = 0 ∧
    p.reset.getRecordType = RecordType.Invalid ∧
    p.reset.recordReady = false ∧
    p.reset.currentState = State.waitForStart ∧
    ∃ p', p.reset.newData (cstr ":") 1 = Except.ok (p', 2) ∧ p'.getError = 0 := by
  refine ⟨by simp [HexParser.getError, HexParser.reset], rfl,
    by simp [HexParser.recordReady, HexParser.reset], rfl, ?_⟩
  have e := newData_waitForStart p.reset (cstr ":") 1 rfl
  have h0 : cstr ":" 0 = 0x3a := by decide
  rw [if_pos ⟨rfl, h0⟩] at e
  exact ⟨_, e, rfl⟩

/-- C16: from every state in which `recordReady()` is true, feeding the start delimiter
`:` with length 1 returns 2 and leaves `recordReady()` false, `getRecordType()` equal to
`Invalid` and `getError()` equal to 0. -/
theorem start_clears_ready (p : HexParser) (inBuffer : Buffer)
    (hr : p.recordReady = true) (h0 : inBuffer 0 = 0x3a) :
    ∃ p', p.newData inBuffer 1 = Except.ok (p', 2) ∧
      p'.recordReady = false ∧ p'.getRecordType = RecordType.Invalid ∧ p'.getError = 0 := by
  obtain ⟨hs, _⟩ := (recordReady_eq_true_iff p).1 hr
  have e := newData_waitForStart p inBuffer 1 hs
  rw [if_pos ⟨rfl, h0⟩] at e
  exact ⟨_, e, by simp [HexParser.recordReady], rfl, rfl⟩

/-- The start delimiter fed after the completed End-of-File record `:00000001FF`. -/
theorem start_clears_ready_witness :
    exampleReadyEof.recordReady = true ∧ cstr ":" 0 = 0x3a ∧
    ∃ p', exampleReadyEof.newData (cstr ":") 1 = Except.ok (p', 2) ∧
      p'.recordReady = false ∧ p'.getRecordType = RecordType.Invalid ∧ p'.getError = 0 :=
  ⟨by decide, by decide, start_clears_ready exampleReadyEof (cstr ":") (by decide) (by decide)⟩

/-! ## The decoder on digits and on arbitrary characters -/

theorem shift_or_exact : ∀ a < 16, ∀ b < 16, (a <<< 4) ||| b = 16 * a + b := by
  decide

/-- C17: for a hexadecimal digit character `hexCharToNumber(c)` is its numeric value:
`0`..`9` give 0..9, `A`..`F` and `a`..`f` give 10..15, so both cases of a letter decode
equally; and for two hexadecimal digit characters
`hexCharToNumber(high, low) = 16 * hexCharToNumber(high) + hexCharToNumber(low)
= (hexCharToNumber(high) << 4) | hexCharToNumber(low)`, a value in 0..255. -/
theorem hexCharToNumber_digit_value :
    (∀ c : Int, 0x30 ≤ c → c ≤ 0x39 → (hexCharToNumber c : Int) = c - 0x30) ∧
    (∀ c : Int, 0x41 ≤ c → c ≤ 0x46 → (hexCharToNumber c : Int) = 10 + (c - 0x41)) ∧
    (∀ c : Int, 0x61 ≤ c → c ≤ 0x66 → (hexCharToNumber c : Int) = 10 + (c - 0x61)) ∧
    (∀ c : Int, 0x41 ≤ c → c ≤ 0x46 → hexCharToNumber (c + 0x20) = hexCharToNumber c) ∧
    (∀ c : Int, isHexDigit c → hexCharToNumber c = hexDigitValue c ∧ hexCharToNumber c ≤ 15) ∧
    (∀ high low : Int, isHexDigit high → isHexDigit low →
      hexCharToNumber2 high low = 16 * hexCharToNumber high + hexCharToNumber low ∧
      hexCharToNumber2 high low = (hexCharToNumber high <<< 4) ||| hexCharToNumber low ∧
      hexCharToNumber2 high low ≤ 255) := by
  refine ⟨?_, ?_, ?_, ?_, ?_, ?_⟩
  · intro c h1 h2
    unfold hexCharToNumber
    have a1 : ¬ c ≥ 0x61 := by omega
    have a2 : ¬ c ≥ 0x41 := by omega
    rw [if_neg a1, if_neg a2]
    omega
  · intro c h1 h2
    unfold hexCharToNumber
    have a1 : ¬ c ≥ 0x61 := by omega
    have a2 : c ≥ 0x41 := by omega
    rw [if_neg a1, if_pos a2]
    omega
  · intro c h1 h2
    unfold hexCharToNumber
    have a1 : c ≥ 0x61 := by omega
    rw [if_pos a1]
    omega
  · intro c h1 h2
    unfold hexCharToNumber
    have a1 : ¬ c ≥ 0x61 := by omega
    have a2 : c ≥ 0x41 := by omega
    have a3 : c + 0x20 ≥ 0x61 := by omega
    rw [if_neg a1, if_pos a2, if_pos a3]
    omega
  · intro c h
    obtain ⟨e, b⟩ := hexCharToNumber_of_isHexDigit c h
    exact ⟨e, by omega⟩
  · intro high low hh hl
    obtain ⟨e1, b1⟩ := hexCharToNumber_of_isHexDigit high hh
    obtain ⟨e2, b2⟩ := hexCharToNumber_of_isHexDigit low hl
    have e := hexCharToNumber2_of_isHexDigit high low hh hl
    have hlt := hexCharToNumber2_lt high low
    refine ⟨by rw [e, e1, e2], ?_, by omega⟩
    rw [e, e1, e2]
    exact (shift_or_exact _ b1 _ b2).symm

/-- The digits `b` and `B` decode to 11, and the pair `1A` decodes to 0x1A. -/
theorem hexCharToNumber_digit_value_witness :
    isHexDigit 0x62 ∧ isHexDigit 0x31 ∧ isHexDigit 0x41 ∧
    (hexCharToNumber 0x62 = hexDigitValue 0x62 ∧ hexCharToNumber 0x62 ≤ 15) ∧
    hexCharToNumber (0x42 + 0x20) = hexCharToNumber 0x42 ∧
    (hexCharToNumber2 0x31 0x41 = 16 * hexCharToNumber 0x31 + hexCharToNumber 0x41 ∧
      hexCharToNumber2 0x31 0x41 = (hexCharToNumber 0x31 <<< 4) ||| hexCharToNumber 0x41 ∧
      hexCharToNumber2 0x31 0x41 ≤ 255) :=
  ⟨by decide, by decide, by decide,
    hexCharToNumber_digit_value.2.2.2.2.1 0x62 (by decide),
    hexCharToNumber_digit_value.2.2.2.1 0x42 (by decide) (by decide),
    hexCharToNumber_digit_value.2.2.2.2.2 0x31 0x41 (by decide) (by decide)⟩

/-- C18, as stated, fails: the characters `G` (0x47), `g` (0x67), `@` (0x40) and the blank
(0x20) decode to 16, 16, 16 and 240, all above 15. -/
theorem hexCharToNumber_range_counterexample :
    hexCharToNumber 0x47 = 16 ∧ hexCharToNumber 0x67 = 16 ∧ hexCharToNumber 0x40 = 16 ∧
    hexCharToNumber 0x20 = 240 ∧ ¬ hexCharToNumber 0x47 ≤ 15 := by
  decide

/-- C18, amended: for every input character `hexCharToNumber(c)` is a value in 0..255; for
an 8-bit character code (signed or unsigned) the value is in 0..15 exactly when the
character lies in 0x30..0x3F, `A`..`F` or `a`..`f`, so for every hexadecimal digit it is in
0..15. -/
theorem hexCharToNumber_range (c : Int) :
    hexCharToNumber c ≤ 255 ∧
    (isHexDigit c → hexCharToNumber c ≤ 15) ∧
    (-128 ≤ c → c ≤ 255 →
      (hexCharToNumber c ≤ 15 ↔
        (0x30 ≤ c ∧ c ≤ 0x3f) ∨ (0x41 ≤ c ∧ c ≤ 0x46) ∨ (0x61 ≤ c ∧ c ≤ 0x66))) := by
  refine ⟨?_, ?_, ?_⟩
  · unfold hexCharToNumber
    split_ifs <;> omega
  · intro h
    have := (hexCharToNumber_of_isHexDigit c h)
    omega
  · intro h1 h2
    unfold hexCharToNumber
    split_ifs <;> omega

/-- The digit `7` decodes to a value of at most 15; the character `G` does not. -/
theorem hexCharToNumber_range_witness :
    isHexDigit 0x37 ∧ hexCharToNumber 0x37 ≤ 15 ∧
    ((-128 : Int) ≤ 0x47 ∧ (0x47 : Int) ≤ 255 ∧
      (hexCharToNumber 0x47 ≤ 15 ↔
        (0x30 ≤ (0x47 : Int) ∧ (0x47 : Int) ≤ 0x3f) ∨ (0x41 ≤ (0x47 : Int) ∧ (0x47 : Int) ≤ 0x46)
          ∨ (0x61 ≤ (0x47 : Int) ∧ (0x47 : Int) ≤ 0x66))) :=
  ⟨by decide, (hexCharToNumber_range 0x37).2.1 (by decide), by decide, by decide,
    (hexCharToNumber_range 0x47).2.2 (by decide) (by decide)⟩

/-! ## What the header chunks request -/

/-- C12: whatever characters the byte-count field `b1 b2` and the address field hold, after
the start delimiter the byte-count chunk returns 4, the address chunk returns 2, and the
record-type chunk `00` returns `2 * hexCharToNumber(b1, b2)`, a value of at most 510. -/
theorem header_requests (q : HexParser) (line : Buffer)
    (hs : q.currentState = State.waitForStart) (h0 : line 0 = 0x3a) :
    (∃ q1, feedChunks 1 q line 1 = Except.ok (q1, 2)) ∧
    (∃ q2, feedChunks 2 q line 1 = Except.ok (q2, 4)) ∧
    (∃ q3, feedChunks 3 q line 1 = Except.ok (q3, 2)) ∧
    (line 7 = 0x30 → line 8 = 0x30 →
      ∃ q4, feedChunks 4 q line 1
          = Except.ok (q4, 2 * hexCharToNumber2 (line 1) (line 2)) ∧
        q4.getError = 0) ∧
    2 * hexCharToNumber2 (line 1) (line 2) ≤ 510 := by
  obtain ⟨q1, q2, q3, e1, e2, e3, _, _, s3, _, b3, _⟩ := header_steps q line hs h0
  have c1 : feedChunks 1 q line 1 = Except.ok (q1, 2) := by
    rw [feedChunks_step 0 q q1 line 1 2 e1]; rfl
  have c2 : feedChunks 2 q line 1 = Except.ok (q2, 4) := by
    rw [feedChunks_step 1 q q1 line 1 2 e1, feedChunks_step 0 q1 q2 _ 2 4 e2]; rfl
  have c3 : feedChunks 3 q line 1 = Except.ok (q3, 2) := by
    rw [feedChunks_step 2 q q1 line 1 2 e1, feedChunks_step 1 q1 q2 _ 2 4 e2, advance_advance,
      feedChunks_step 0 q2 q3 _ 4 2 e3]; rfl
  refine ⟨⟨q1, c1⟩, ⟨q2, c2⟩, ⟨q3, c3⟩, ?_, ?_⟩
  · intro h7 h8
    have e4 := newData_waitForRecordType q3 (advance line 7) 2 s3
    have h7' : advance line 7 0 = 0x30 := h7
    have h8' : advance line 7 1 = 0x30 := h8
    rw [if_pos rfl, if_pos ⟨h7', h8'⟩] at e4
    have hb : q3.expectedByteCount * 2 = 2 * hexCharToNumber2 (line 1) (line 2) := by
      rw [b3]
      show hexCharToNumber2 (line 1) (line 2) * 2 = _
      exact Nat.mul_comm _ _
    rw [hb] at e4
    refine ⟨{ q3 with checksum := (q3.checksum + 0x00) % 2 ^ 32,
                      currentState := State.waitForData }, ?_, rfl⟩
    rw [feedChunks_step 3 q q1 line 1 2 e1, feedChunks_step 2 q1 q2 _ 2 4 e2, advance_advance,
      feedChunks_step 1 q2 q3 _ 4 2 e3, advance_advance, feedChunks_step 0 q3 _ _ 2 _ e4]
    rfl
  · have := hexCharToNumber2_lt (line 1) (line 2)
    omega

/-- The byte count `03` makes the record-type chunk `00` request 6 characters. -/
theorem header_requests_witness :
    (HexParser.new fun _ => 0).currentState = State.waitForStart ∧
    exampleHeaderLine 0 = 0x3a ∧ exampleHeaderLine 7 = 0x30 ∧ exampleHeaderLine 8 = 0x30 ∧
    ∃ q4, feedChunks 4 (HexParser.new fun _ => 0) exampleHeaderLine 1 = Except.ok (q4, 6) ∧
      q4.getError = 0 := by
  obtain ⟨q4, e, h⟩ :=
    (header_requests (HexParser.new fun _ => 0) exampleHeaderLine rfl (by decide)).2.2.2.1
      (by decide) (by decide)
  have hv : 2 * hexCharToNumber2 (exampleHeaderLine 1) (exampleHeaderLine 2) = 6 := by decide
  rw [hv] at e
  exact ⟨rfl, by decide, by decide, by decide, q4, e, h⟩

/-! ## End-of-File records -/

theorem feedChunks_dataLen_le : ∀ (n : Nat) (p p' : HexParser) (pos : Buffer) (req r : Nat),
    p.dataLen ≤ DATA_BUFFER_LEN_MAX → feedChunks n p pos req = Except.ok (p', r) →
    p'.dataLen ≤ DATA_BUFFER_LEN_MAX
  | 0, p, p', pos, req, r, hp, h => by
    simp only [feedChunks] at h
    cases h
    exact hp
  | n + 1, p, p', pos, req, r, hp, h => by
    simp only [feedChunks] at h
    split at h
    · cases h
    · rename_i q next e
      exact feedChunks_dataLen_le n q p' _ next r
        (dataLen_le_newData p q pos req next hp e) h

theorem feedLines_dataLen_le : ∀ (lines : List Line) (p p' : HexParser),
    p.dataLen ≤ DATA_BUFFER_LEN_MAX → feedLines p lines = Except.ok p' →
    p'.dataLen ≤ DATA_BUFFER_LEN_MAX
  | [], p, p', hp, h => by
    simp only [feedLines] at h
    cases h
    exact hp
  | l :: ls, p, p', hp, h => by
    simp only [feedLines] at h
    split at h
    · cases h
    · rename_i q r e
      refine feedLines_dataLen_le ls q p' ?_ h
      cases l with
      | data chars => exact feedChunks_dataLen_le 6 p q chars 1 r hp e
      | eof chars => exact feedChunks_dataLen_le 5 p q chars 1 r hp e

/-- C11: a well-formed End-of-File line `: BB AAAA 01 CC`, fed by the caller protocol to a
new parser or to a parser that has completed any number of well-formed records: the
record-type chunk `01` returns 2 and the checksum is awaited next (no data phase); after
the checksum chunk `getRecordType()` is `EndOfFile`, `recordReady()` is true, and `getData`
reports length 0, whatever payload length an earlier Data record left in the parser. -/
theorem eof_line_decoded (uninit : Nat → Nat) (done : List Line) (line : Buffer)
    (hdone : ∀ l ∈ done, l.WellFormed) (hline : WellFormedEofLine line)
    (dataRecord : DataRecord) :
    ∃ q q4 p out, feedLines (HexParser.new uninit) done = Except.ok q ∧
      feedChunks 4 q line 1 = Except.ok (q4, 2) ∧
      q4.currentState = State.waitForChecksum ∧
      feedChunks 5 q line 1 = Except.ok (p, 1) ∧
      p.getRecordType = RecordType.EndOfFile ∧ p.recordReady = true ∧ p.getError = 0 ∧
      p.dataLen = q.dataLen ∧
      p.getData dataRecord = Except.ok out ∧ out.len = 0 := by
  obtain ⟨q, eq, hs, hc⟩ := feedLines_wellFormed done _ (idle_new uninit) hdone
  have hq : q.dataLen ≤ DATA_BUFFER_LEN_MAX :=
    feedLines_dataLen_le done _ q (Nat.zero_le _) eq
  obtain ⟨_, _, _, hsum⟩ := wellFormedEofLine_bytes line hline
  obtain ⟨h0, _, h7, h8, _⟩ := hline
  obtain ⟨q1, q2, q3, q4, q5, r, e1, e2, e3, e4, e5, _, _, _, s4, t, _, l, _, _, _, hfin⟩ :=
    eof_line_steps q line hs h0 h7 h8
  have hok : (q.checksum + eofByteSum line) % 256 = 0 := by omega
  rw [if_pos hok] at hfin
  obtain ⟨hst, hr⟩ := hfin
  subst hr
  have c4 : feedChunks 4 q line 1 = Except.ok (q4, 2) := by
    rw [feedChunks_step 3 q q1 line 1 2 e1, feedChunks_step 2 q1 q2 _ 2 4 e2, advance_advance,
      feedChunks_step 1 q2 q3 _ 4 2 e3, advance_advance, feedChunks_step 0 q3 q4 _ 2 2 e4]
    rfl
  have c5 : feedChunks 5 q line 1 = Except.ok (q5, 1) := by
    rw [feedChunks_step 4 q q1 line 1 2 e1, feedChunks_step 3 q1 q2 _ 2 4 e2, advance_advance,
      feedChunks_step 2 q2 q3 _ 4 2 e3, advance_advance, feedChunks_step 1 q3 q4 _ 2 2 e4,
      advance_advance, feedChunks_step 0 q4 q5 _ 2 1 e5]
    rfl
  have hlen : q5.dataLen ≤ DATA_BUFFER_LEN_MAX ∧ q5.dataLen ≤ RECORD_LEN_MAX := by
    rw [l]; exact ⟨hq, hq⟩
  have hnd : ¬ q5.recordType = RecordType.Data := by
    rw [t]; decide
  refine ⟨q, q4, q5, { dataRecord with
      data := fun j => if j < q5.dataLen then q5.dataBuffer j else dataRecord.data j
      addr := q5.addr
      len := 0 }, eq, c4, s4, c5, t, ?_, ?_, l, ?_, ?_⟩
  · simp [HexParser.recordReady, hst, t]
  · simp [HexParser.getError, hst]
  · unfold HexParser.getData
    rw [if_pos hlen, if_neg hnd]
  · rfl

/-- The line `:00000001FF` on a new parser, and after the integration line, which leaves a
payload length of 16 in the parser: End-of-File with length 0 both times. -/
theorem eof_line_decoded_witness :
    WellFormedEofLine exampleEofLine ∧
    (∃ p out, feedChunks 5 (HexParser.new fun _ => 0) exampleEofLine 1 = Except.ok (p, 1) ∧
      p.getRecordType = RecordType.EndOfFile ∧ p.recordReady = true ∧
      p.getData DataRecord.new = Except.ok out ∧ out.len = 0) ∧
    (∀ l ∈ [Line.data exampleDataLine], l.WellFormed) ∧
    (∃ q p out, feedLines (HexParser.new fun _ => 0) [Line.data exampleDataLine] = Except.ok q ∧
      q.dataLen = 16 ∧
      feedChunks 5 q exampleEofLine 1 = Except.ok (p, 1) ∧
      p.getRecordType = RecordType.EndOfFile ∧ p.recordReady = true ∧
      p.dataLen = 16 ∧
      p.getData DataRecord.new = Except.ok out ∧ out.len = 0) := by
  have he : WellFormedEofLine exampleEofLine := by decide
  have hall : ∀ l ∈ [Line.data exampleDataLine], l.WellFormed := by
    intro l hl
    simp only [List.mem_singleton] at hl
    subst hl
    show WellFormedDataLine exampleDataLine
    decide
  refine ⟨he, ?_, hall, ?_⟩
  · obtain ⟨q, q4, p, out, eq, _, _, c5, h1, h2, _, _, h5, h6⟩ :=
      eof_line_decoded (fun _ => 0) [] exampleEofLine (by simp) he DataRecord.new
    simp only [feedLines] at eq
    cases eq
    exact ⟨p, out, c5, h1, h2, h5, h6⟩
  · obtain ⟨q, q4, p, out, eq, _, _, c5, h1, h2, _, h4, h5, h6⟩ :=
      eof_line_decoded (fun _ => 0) [Line.data exampleDataLine] exampleEofLine hall he
        DataRecord.new
    have hq : feedLines (HexParser.new fun _ => 0) [Line.data exampleDataLine]
        = Except.ok q → q.dataLen = 16 := by
      intro h
      have h' : (feedLines (HexParser.new fun _ => 0) [Line.data exampleDataLine]).map
          (fun x => x.dataLen) = Except.ok 16 := rfl
      rw [h] at h'
      exact Except.ok.inj h'
    have hq16 := hq eq
    exact ⟨q, p, out, eq, hq16, c5, h1, h2, by rw [h4, hq16], h5, h6⟩

/-! ## Rejected records -/

/-- C19: when a Data record with a byte count of at most 50 is fed completely by the caller
protocol and its checksum chunk fails validation, the parser is in the Error phase and
`recordReady()` is false, yet `getRecordType()` returns `Data` and `getData` reports the
rejected record: its byte count as length, its address and its decoded payload bytes.
Likewise `getRecordType()` returns `EndOfFile` after a rejected End-of-File record. -/
theorem rejected_record_stays_visible (q : HexParser) (line : Buffer)
    (hs : q.currentState = State.waitForStart) (h0 : line 0 = 0x3a) (h7 : line 7 = 0x30) :
    (line 8 = 0x30 → byteAt line 1 ≤ DATA_BUFFER_LEN_MAX →
      (q.checksum + dataByteSum line) % 256 ≠ 0 →
      ∀ dataRecord : DataRecord, ∃ p out,
        feedChunks 6 q line 1 = Except.ok (p, 0) ∧
        p.getError ≠ 0 ∧ p.recordReady = false ∧
        p.getRecordType = RecordType.Data ∧
        p.getData dataRecord = Except.ok out ∧
        out.len = byteAt line 1 ∧
        out.addr = 256 * byteAt line 3 + byteAt line 5 ∧
        ∀ i < byteAt line 1, out.data i = byteAt line (9 + 2 * i)) ∧
    (line 8 = 0x31 → (q.checksum + eofByteSum line) % 256 ≠ 0 →
      ∃ p, feedChunks 5 q line 1 = Except.ok (p, 0) ∧
        p.getError ≠ 0 ∧ p.recordReady = false ∧
        p.getRecordType = RecordType.EndOfFile) := by
  constructor
  · intro h8 hbb hbad dataRecord
    obtain ⟨p, r, e, ⟨t, _, l, a, d, _⟩, hfin⟩ := data_line_feedChunks q line hs h0 h7 h8 hbb
    rw [if_neg hbad] at hfin
    obtain ⟨hst, hr⟩ := hfin
    subst hr
    have hlen : p.dataLen ≤ DATA_BUFFER_LEN_MAX ∧ p.dataLen ≤ RECORD_LEN_MAX := by
      rw [l]; exact ⟨hbb, hbb⟩
    refine ⟨p, { dataRecord with
        data := fun j => if j < p.dataLen then p.dataBuffer j else dataRecord.data j
        addr := p.addr
        len := p.dataLen }, e, ?_, ?_, t, ?_, l, ?_, ?_⟩
    · simp [HexParser.getError, hst]
    · simp [HexParser.recordReady, hst]
    · unfold HexParser.getData
      rw [if_pos hlen, if_pos t]
    · show p.addr = _
      rw [a, shift_or_byte _ _ (byteAt_lt line 5)]
    · intro i hi
      show (if i < p.dataLen then p.dataBuffer i else dataRecord.data i) = _
      rw [l, if_pos hi, d i, if_pos hi]
  · intro h8 hbad
    obtain ⟨p, r, e, ⟨t, _⟩, hfin⟩ := eof_line_feedChunks q line hs h0 h7 h8
    rw [if_neg hbad] at hfin
    obtain ⟨hst, hr⟩ := hfin
    subst hr
    exact ⟨p, e, by simp [HexParser.getError, hst], by simp [HexParser.recordReady, hst], t⟩

/-- The Data record `03 1AbF 00 0a0b0c` with the wrong checksum `ff`: rejected, and still
reported as a Data record of length 3 at address 0x1abf with payload 0a 0b 0c. -/
theorem rejected_record_stays_visible_witness :
    (HexParser.new fun _ => 0).currentState = State.waitForStart ∧
    exampleWrongChecksumLine 0 = 0x3a ∧ exampleWrongChecksumLine 7 = 0x30 ∧
    exampleWrongChecksumLine 8 = 0x30 ∧
    byteAt exampleWrongChecksumLine 1 ≤ DATA_BUFFER_LEN_MAX ∧
    ((HexParser.new fun _ => 0).checksum + dataByteSum exampleWrongChecksumLine) % 256 ≠ 0 ∧
    ∃ p out, feedChunks 6 (HexParser.new fun _ => 0) exampleWrongChecksumLine 1
        = Except.ok (p, 0) ∧
      p.getError ≠ 0 ∧ p.recordReady = false ∧ p.getRecordType = RecordType.Data ∧
      p.getData DataRecord.new = Except.ok out ∧
      out.len = 3 ∧ out.addr = 0x1abf ∧
      out.data 0 = 0x0a ∧ out.data 1 = 0x0b ∧ out.data 2 = 0x0c := by
  have hbad : ((HexParser.new fun _ => 0).checksum + dataByteSum exampleWrongChecksumLine)
      % 256 ≠ 0 := by decide
  obtain ⟨p, out, e, h1, h2, h3, h4, h5, h6, h7⟩ :=
    (rejected_record_stays_visible (HexParser.new fun _ => 0) exampleWrongChecksumLine rfl
      (by decide) (by decide)).1 (by decide) (by decide) hbad DataRecord.new
  refine ⟨rfl, by decide, by decide, by decide, by decide, hbad, p, out, e, h1, h2, h3, h4,
    ?_, ?_, ?_, ?_, ?_⟩
  · rw [h5]; decide
  · rw [h6]; decide
  · rw [h7 0 (by decide)]; decide
  · rw [h7 1 (by decide)]; decide
  · rw [h7 2 (by decide)]; decide

end hex
